import Mathlib

set_option linter.unusedVariables false

/-!
Verification of the name-resolution core (`analysis/names.rs`) of the VHDL
static analyzer.  The data model and the resolver functions below are a
shallow embedding of the Rust source.  Collaborators that live outside the
given source tree (the entity/type model of `named_entity.rs`, the scope,
the overload disambiguator, the expression analyzers) are modelled as
oracle fields of a context record `Ctx`, or as definitions whose doc
comment starts with `Modelled from the spec:`.

Rust mutability is made explicit: the resolver functions return, next to
their result, the list of diagnostics appended to the sink and the new
value (if written) of the resolved-reference slot of the name node they
were given.  Rust panics (`unwrap`, `unreachable!`) are made explicit as
the `Outcome.panicked` result; running out of recursion fuel (an artifact
of the embedding, the Rust recursion is structural over the AST plus the
association-element expressions) is the distinct `Outcome.outOfFuel`.
-/

namespace VhdlNames

/-- Source position token (opaque in this development). -/
abbrev Pos := Nat

/-- Handle of a type entity (`TypeEnt`) in the arena. -/
abbrev TypeId := Nat

/-- Object class of an object entity. -/
inductive ObjectClass where
  | signalClass
  | variableClass
  | constantClass
  | sharedVariableClass
deriving DecidableEq, Repr

/-- Modelled from the spec: `ExternalObjectClass` (constant, signal, variable);
its `.into()` conversion to `ObjectClass` is the identity here. -/
abbrev ExternalObjectClass := ObjectClass

/-- Mode of an interface object. -/
inductive Mode where
  | inMode
  | outMode
  | inOutMode
  | bufferMode
  | linkageMode
deriving DecidableEq, Repr

/-- A subprogram entity of an overloaded set (`OverloadedEnt`): its arena id and
its return type (`None` for procedures). -/
structure OEnt where
  id : Nat
  returnType : Option TypeId
deriving DecidableEq, Repr

/-- An object entity (`ObjectEnt`): arena id, class, mode and the type mark of
its subtype. -/
structure ObjEnt where
  id : Nat
  objClass : ObjectClass
  mode : Option Mode
  typeMark : TypeId
deriving DecidableEq, Repr

/-- The kind of an arena entity (`AnyEntKind`), restricted to the payload the
resolver consumes.  Subtype payloads are represented by their type mark. -/
inductive EntKind where
  | objectKind (objClass : ObjectClass) (mode : Option Mode) (typeMark : TypeId)
  | objectAliasKind (baseObject : ObjEnt) (typeMark : TypeId)
  | externalAliasKind (objClass : ExternalObjectClass) (typeMark : TypeId)
  | deferredConstantKind (typeMark : TypeId)
  | typeKind (typ : TypeId)
  | overloadedKind (returnType : Option TypeId)
  | designKind
  | libraryKind (sym : String)
  | attributeKind
  | elementDeclarationKind (typeMark : TypeId)
  | labelKind
  | loopParameterKind
  | fileKind (typeMark : TypeId)
  | interfaceFileKind (typ : TypeId)
  | componentKind
  | physicalLiteralKind (typ : TypeId)
deriving DecidableEq, Repr

/-- An arena entity (`AnyEnt` reference): stable id plus its kind. -/
structure Ent where
  id : Nat
  kind : EntKind
deriving DecidableEq, Repr

/-- A design-unit entity (`DesignEnt`). -/
structure DesignEnt where
  id : Nat
deriving DecidableEq, Repr

/-- Modelled from the spec: `AnyEntKind::describe` of the entity model
(`named_entity.rs`, not under `src/`). -/
def EntKind.describe : EntKind → String
  | .objectKind .signalClass _ _ => "signal"
  | .objectKind .variableClass _ _ => "variable"
  | .objectKind .constantClass _ _ => "constant"
  | .objectKind .sharedVariableClass _ _ => "shared variable"
  | .objectAliasKind _ _ => "object alias"
  | .externalAliasKind _ _ => "external alias"
  | .deferredConstantKind _ => "deferred constant"
  | .typeKind _ => "type"
  | .overloadedKind _ => "overloaded"
  | .designKind => "design unit"
  | .libraryKind _ => "library"
  | .attributeKind => "attribute"
  | .elementDeclarationKind _ => "element declaration"
  | .labelKind => "label"
  | .loopParameterKind => "loop parameter"
  | .fileKind _ => "file"
  | .interfaceFileKind _ => "file"
  | .componentKind => "component"
  | .physicalLiteralKind _ => "physical literal"

/-- A diagnostic pushed to the sink or carried by a non-fatal error.  The
`related` notes keep only position and message. -/
structure Diag where
  pos : Pos
  message : String
  isError : Bool := true
  related : List (Pos × String) := []
deriving DecidableEq, Repr

/-- Shorthand for an error diagnostic. -/
def Diag.mkError (pos : Pos) (message : String) : Diag :=
  { pos := pos, message := message }

/-- Shorthand for a warning diagnostic. -/
def Diag.mkWarning (pos : Pos) (message : String) : Diag :=
  { pos := pos, message := message, isError := false }

/-- Modelled from the spec: the kind of a type entity (`Type` of
`named_entity.rs`, not under `src/`), restricted to the payload the resolver
consumes.  Array types carry their rank and element type; record fields carry
the element-declaration entity id and its type mark; protected types carry
their method bundles by designator. -/
inductive TypeKind where
  | enumKind
  | integerKind
  | realKind
  | physicalKind
  | arrayKind (rank : Nat) (elemType : TypeId)
  | recordKind (fields : List (String × Nat × TypeId))
  | accessKind (pointee : TypeId)
  | fileKind (typeMark : TypeId)
  | protectedKind (methods : List (String × List OEnt))
  | incompleteKind
  | subtypeKind (parent : TypeId)
deriving DecidableEq, Repr

/-- Modelled from the spec: the type arena.  `kind` gives the kind of a type
handle, `base` its base type (subtype layers stripped), `declPos` its
declaration position (used only by diagnostics). -/
structure TypeArena where
  kind : TypeId → TypeKind
  base : TypeId → TypeId
  declPos : TypeId → Option Pos

/-- Modelled from the spec: `TypeEnt::base_type()` — strips subtype layers. -/
def base_type (a : TypeArena) (t : TypeId) : TypeId :=
  a.base t

/-- Modelled from the spec: `TypeEnt::sliced_as()` — `Some(self)` if the base
type is an array; for an access to an array, the pointee array type. -/
def sliced_as (a : TypeArena) (t : TypeId) : Option TypeId :=
  match a.kind (base_type a t) with
  | .accessKind p =>
    match a.kind (base_type a p) with
    | .arrayKind _ _ => some p
    | _ => none
  | .arrayKind _ _ => some t
  | _ => none

/-- Modelled from the spec: `TypeEnt::array_type()` — the element type and rank
of an array type, unwrapping one level of access to array as well (this matches
the inline unwrap of `analyze_indexed_name` in the source). -/
def array_type (a : TypeArena) (t : TypeId) : Option (TypeId × Nat) :=
  let bt := base_type a t
  let bt2 := match a.kind bt with
    | .accessKind sub => base_type a sub
    | _ => bt
  match a.kind bt2 with
  | .arrayKind rank elemType => some (elemType, rank)
  | _ => none

/-- Modelled from the spec: `TypeEnt::accessed_type()` — the pointee type mark
when the base type is an access type. -/
def accessed_type (a : TypeArena) (t : TypeId) : Option TypeId :=
  match a.kind (base_type a t) with
  | .accessKind p => some p
  | _ => none

/-- Discreteness test of `expr_as_discrete_range_type`: the base type is an
enumeration or integer type. -/
def is_discrete (a : TypeArena) (t : TypeId) : Bool :=
  match a.kind (base_type a t) with
  | .enumKind => true
  | .integerKind => true
  | _ => false

/-- A suffix designator node (`WithPos<WithRef<Designator>>`): position,
designator text and the mutable resolved-reference slot. -/
structure SuffixDes where
  pos : Pos
  des : String
  ref : Option Nat
deriving DecidableEq, Repr

mutual
/-- The syntactic `Name` AST.  Designator-bearing constructors carry the
initial value of their mutable reference slot; discrete ranges, signatures and
subtype indications are opaque tags consumed by external analyzers. -/
inductive Name where
  | designator (des : String) (ref : Option Nat)
  | selected (pfxPos : Pos) (pfx : Name) (sfx : SuffixDes)
  | selectedAll (pfxPos : Pos) (pfx : Name)
  | sliceName (pfxPos : Pos) (pfx : Name) (range : Nat)
  | attributeName (pfxPos : Pos) (pfx : Name) (signature : Option Nat) (expr : Option Expr)
  | callOrIndexed (pfxPos : Pos) (pfx : Name) (parameters : List AssociationElement)
  | external (objClass : ExternalObjectClass) (subtype : Nat)

/-- An expression: the resolver inspects only the `Name` case, the rest is
opaque to it. -/
inductive Expr where
  | nameExpr (n : Name)
  | otherExpr (tag : Nat)

/-- An actual part of an association element: an expression or `open`. -/
inductive ActualPart where
  | expression (e : Expr)
  | openActual

/-- One association element: optional formal part (opaque), the position of the
actual, and the actual part. -/
inductive AssociationElement where
  | mk (formal : Option Nat) (actualPos : Pos) (actual : ActualPart)
end

/-- Formal part of an association element. -/
def AssociationElement.formal : AssociationElement → Option Nat
  | .mk f _ _ => f

/-- Position of the actual of an association element. -/
def AssociationElement.actualPos : AssociationElement → Pos
  | .mk _ p _ => p

/-- Actual part of an association element. -/
def AssociationElement.actual : AssociationElement → ActualPart
  | .mk _ _ a => a

/-- Whether an actual part is `open`. -/
def ActualPart.isOpen : ActualPart → Bool
  | .openActual => true
  | .expression _ => false

/-- The could-be-indexed-name predicate: every association is positional and
none has actual `open`. -/
def could_be_indexed_name (assocs : List AssociationElement) : Bool :=
  assocs.all fun assoc => assoc.formal.isNone && !assoc.actual.isOpen

/-- The single trailing suffix exposed by the name splitter. -/
inductive Suffix where
  | selectedSuffix (sdes : SuffixDes)
  | allSuffix
  | sliceSuffix (range : Nat)
  | attributeSuffix (signature : Option Nat) (expr : Option Expr)
  | callOrIndexedSuffix (assocs : List AssociationElement)

/-- Result of the name splitter (`SplitName`). -/
inductive SplitName where
  | designatorSplit (des : String) (ref : Option Nat)
  | externalSplit (objClass : ExternalObjectClass) (subtype : Nat)
  | suffixSplit (pfxPos : Pos) (pfx : Name) (sfx : Suffix)

/-- The name splitter (`SplitName::from_name`): expose the innermost syntactic
suffix together with the remaining name. -/
def split_name : Name → SplitName
  | .designator des ref => .designatorSplit des ref
  | .external objClass subtype => .externalSplit objClass subtype
  | .selected pfxPos pfx sdes => .suffixSplit pfxPos pfx (.selectedSuffix sdes)
  | .selectedAll pfxPos pfx => .suffixSplit pfxPos pfx .allSuffix
  | .sliceName pfxPos pfx range => .suffixSplit pfxPos pfx (.sliceSuffix range)
  | .attributeName pfxPos pfx signature expr =>
    .suffixSplit pfxPos pfx (.attributeSuffix signature expr)
  | .callOrIndexed pfxPos pfx parameters =>
    .suffixSplit pfxPos pfx (.callOrIndexedSuffix parameters)

/-- Whether a suffix is a call-or-indexed suffix. -/
def Suffix.isCallOrIndexed : Suffix → Bool
  | .callOrIndexedSuffix _ => true
  | _ => false

/-- Modelled from the spec: `Name::is_selected_name` of the AST crate (not
under `src/`): a bare designator or a chain of selected names. -/
def is_selected_name : Name → Bool
  | .designator _ _ => true
  | .selected _ pfx _ => is_selected_name pfx
  | _ => false

/-- Modelled from the spec: `Name::get_suffix_reference` of the AST crate (not
under `src/`): the reference slot of the outermost designator of a bare
designator or a selected name. -/
def get_suffix_reference : Name → Option Nat
  | .designator _ ref => ref
  | .selected _ _ sdes => sdes.ref
  | _ => none

/-- The base of an object name (`ObjectBase`). -/
inductive ObjectBase where
  | object (obj : ObjEnt)
  | objectAlias (obj : ObjEnt) (aliasId : Nat)
  | deferredConstant (entId : Nat)
  | externalName (objClass : ExternalObjectClass)
deriving DecidableEq, Repr

/-- `ObjectBase::mode`. -/
def ObjectBase.modeOf : ObjectBase → Option Mode
  | .object obj => obj.mode
  | .objectAlias obj _ => obj.mode
  | .deferredConstant _ => none
  | .externalName _ => none

/-- `ObjectBase::class`. -/
def ObjectBase.classOf : ObjectBase → ObjectClass
  | .object obj => obj.objClass
  | .objectAlias obj _ => obj.objClass
  | .deferredConstant _ => .constantClass
  | .externalName objClass => objClass

/-- `ObjectName`: the base view plus the optional authoritative type mark. -/
structure ObjectName where
  base : ObjectBase
  typeMark : Option TypeId
deriving DecidableEq, Repr

/-- `ObjectName::type_mark()`.  The Rust function panics (`unreachable!`) when
the type mark is absent and the base is not a plain object; that panic is the
`none` result here. -/
def ObjectName.type_mark (o : ObjectName) : Option TypeId :=
  match o.typeMark with
  | some typeMark => some typeMark
  | none =>
    match o.base with
    | .object obj => some obj.typeMark
    | _ => none

/-- `ObjectName::with_suffix`: keep the base, make the given type mark
authoritative. -/
def ObjectName.with_suffix (o : ObjectName) (typeMark : TypeId) : ObjectName :=
  { base := o.base, typeMark := some typeMark }

/-- A disambiguated type (`DisambiguatedType`). -/
inductive DisambiguatedType where
  | unambiguous (t : TypeId)
  | ambiguous (ts : List TypeId)
deriving DecidableEq, Repr

/-- Outcome of overload disambiguation (`Disambiguated`). -/
inductive Disambiguated where
  | unambiguous (ent : OEnt)
  | ambiguous (ents : List OEnt)
deriving DecidableEq, Repr

/-- A designator with its position (`WithPos<Designator>`). -/
structure DesWithPos where
  des : String
  pos : Pos
deriving DecidableEq, Repr

/-- The resolved-name lattice (`ResolvedName`). -/
inductive ResolvedName where
  | library (sym : String)
  | design (ent : DesignEnt)
  | typeName (typ : TypeId)
  | overloadedName (des : DesWithPos) (overloaded : List OEnt)
  | objectName (o : ObjectName)
  | expression (t : DisambiguatedType)
  | finalName (ent : Ent)
deriving DecidableEq, Repr

/-- Result of a scope or design-unit lookup (`NamedEntities`): a single
entity or an overloaded bundle, never mixed. -/
inductive NamedEntities where
  | single (ent : Ent)
  | overloaded (ents : List OEnt)
deriving DecidableEq, Repr

/-- Modelled from the spec: `set_reference(&NamedEntities)` of the AST crate
writes the resolved entity handle into the node's reference slot; an
overloaded bundle does not resolve to a single handle here. -/
def NamedEntities.uniqueId : NamedEntities → Option Nat
  | .single ent => some ent.id
  | .overloaded _ => none

/-- Result of a typed selection (`TypedSelection`). -/
inductive TypedSelection where
  | recordElement (elemId : Nat) (typeMark : TypeId)
  | protectedMethod (methods : List OEnt)
deriving DecidableEq, Repr

/-- Result of applying a suffix to a typed prefix (`TypeOrMethod`). -/
inductive TypeOrMethod where
  | typeResult (typ : TypeId)
  | methodResult (des : DesWithPos) (methods : List OEnt)
deriving DecidableEq, Repr

/-- The outcome layer of a resolver call: `ok` is the `Ok` of
`AnalysisResult`, `err` the non-fatal error diagnostic, `panicked` a Rust
panic made explicit, `outOfFuel` exhaustion of the embedding's fuel. -/
inductive Outcome (α : Type) where
  | ok (val : α)
  | err (d : Diag)
  | panicked
  | outOfFuel
deriving DecidableEq, Repr

/-- Result triple of a resolver call on a name node: the outcome, the
diagnostics appended to the sink, and the new value (if written) of that name
node's own suffix-reference slot. -/
abbrev RRes := Outcome (Option ResolvedName) × List Diag × Option Nat

/-- Result triple of `resolve_typed_suffix`: outcome, appended diagnostics and
the write (if any) to the suffix designator's reference slot. -/
abbrev TMRes := Outcome (Option TypeOrMethod) × List Diag × Option Nat

/-- The analysis context: the arena, the type model, and the external
collaborators (scope lookup, library and design-unit selection, the overload
disambiguator, and the diagnostics-only analyzers), all outside the given
source tree and therefore oracles here. -/
structure Ctx where
  types : TypeArena
  arena : Nat → EntKind
  lookup : Pos → String → Except Diag NamedEntities
  lookupInLibrary : String → Pos → String → Except Diag DesignEnt
  designSelected : DesignEnt → Pos → String → Except Diag NamedEntities
  disambiguateNoActuals :
    DesWithPos → Option TypeId → List OEnt → Except Diag (Option Disambiguated)
  disambiguate :
    Pos → DesWithPos → List AssociationElement → Option TypeId → List OEnt →
      Except Diag (Option Disambiguated) × List Diag
  resolveSubtypeIndication : Nat → Except Diag TypeId × List Diag
  resolveSignature : Nat → Except Diag Unit
  analyzeExpression : Expr → List Diag
  analyzeAssocElems : List AssociationElement → List Diag
  analyzeDiscreteRange : Nat → List Diag
  analyzeSubtypeIndication : Nat → List Diag
  describeEnt : Nat → String
  describeType : TypeId → String
  designatorOf : Nat → String

/-- Modelled from the spec: display of an object class. -/
def ObjectClass.show : ObjectClass → String
  | .signalClass => "signal"
  | .variableClass => "variable"
  | .constantClass => "constant"
  | .sharedVariableClass => "shared variable"

/-- `ObjectBase::describe` (quoting of designators elided: designator text is
an oracle of the context). -/
def ObjectBase.describe (ctx : Ctx) : ObjectBase → String
  | .deferredConstant entId => "deferred constant " ++ ctx.designatorOf entId
  | .externalName _ => "external name"
  | .object obj => ctx.describeEnt obj.id
  | b@(.objectAlias _ aliasId) =>
    "alias " ++ ctx.designatorOf aliasId ++ " of " ++ b.classOf.show

/-- `ObjectName::describe_type`: the authoritative type mark when present,
otherwise the base description together with the effective type. -/
def ObjectName.describe_type (ctx : Ctx) (o : ObjectName) : String :=
  match o.typeMark with
  | some typeMark => ctx.describeType typeMark
  | none =>
    o.base.describe ctx ++ " of " ++
      (match o.type_mark with
       | some tm => ctx.describeType tm
       | none => "")

/-- `OverloadedName::as_unique`: the only entity of a singleton bundle. -/
def as_unique : List OEnt → Option OEnt
  | [ent] => some ent
  | _ => none

/-- `ResolvedName::describe`. -/
def ResolvedName.describe (ctx : Ctx) : ResolvedName → String
  | .library sym => "library " ++ sym
  | .design ent => ctx.describeEnt ent.id
  | .typeName typ => ctx.describeType typ
  | .overloadedName des overloaded =>
    match as_unique overloaded with
    | some ent => ctx.describeEnt ent.id
    | none => "Overloaded name " ++ des.des
  | .objectName o => o.base.describe ctx
  | .finalName ent => ctx.describeEnt ent.id
  | .expression (.unambiguous _) => "Expression"
  | .expression (.ambiguous _) => "Ambiguous expression"

/-- `ResolvedName::describe_type`. -/
def ResolvedName.describe_type (ctx : Ctx) : ResolvedName → String
  | .objectName o => o.describe_type ctx
  | .expression (.unambiguous typ) => "Expression of " ++ ctx.describeType typ
  | r => r.describe ctx

/-- The suffix phrase of `Diagnostic::cannot_be_prefix`. -/
def suffix_describe : Suffix → String
  | .selectedSuffix _ => "selected"
  | .allSuffix => "accessed with .all"
  | .sliceSuffix _ => "sliced"
  | .attributeSuffix _ _ => "the prefix of an attribute"
  | .callOrIndexedSuffix assocs =>
    if could_be_indexed_name assocs then "indexed" else "called as a function"

/-- `Diagnostic::cannot_be_prefix`: when something cannot be called as a
function the type is not relevant, otherwise the type-oriented description is
used. -/
def cannot_be_pfx (ctx : Ctx) (pfxPos : Pos) (resolved : ResolvedName)
    (sfx : Suffix) : Diag :=
  let nameDesc :=
    match sfx with
    | .callOrIndexedSuffix assocs =>
      if could_be_indexed_name assocs then resolved.describe_type ctx
      else resolved.describe ctx
    | _ => resolved.describe_type ctx
  Diag.mkError pfxPos (nameDesc ++ " cannot be " ++ suffix_describe sfx)

/-- `plural` helper of the diagnostics. -/
def plural (singular other : String) (count : Nat) : String :=
  if count = 1 then singular else other

/-- `Diagnostic::dimension_mismatch`: the fixed main message plus, when the
array type has a declaration position, a related note at it. -/
def Diag.dimension_mismatch (ctx : Ctx) (pos : Pos) (baseTyp : TypeId)
    (got expected : Nat) : Diag :=
  let related :=
    match ctx.types.declPos baseTyp with
    | some declPos =>
      [(declPos,
        (ctx.describeType baseTyp ++ " has " ++ toString expected ++ " " ++
          plural "dimension" "dimensions" expected ++ ", got " ++
          toString got ++ " " ++ plural "index" "indexes" got).capitalize)]
    | none => []
  { pos := pos, message := "Number of indexes does not match array dimension",
    related := related }

/-- `Diagnostic::unreachable`: warning shown to the user on an internal logic
error. -/
def Diag.unreachableDiag (pos : Pos) (expected : String) : Diag :=
  Diag.mkWarning pos ("Internal error, unreachable code " ++ expected)

/-- `Diagnostic::ambiguous_call`: the candidates become related notes
(signature rendering is an oracle). -/
def Diag.ambiguous_call (ctx : Ctx) (callName : DesWithPos)
    (candidates : List OEnt) : Diag :=
  { pos := callName.pos,
    message := "Ambiguous call to " ++ callName.des,
    related := candidates.map fun c => (callName.pos, "Migth be " ++ ctx.describeEnt c.id) }

/-- `ResolvedName::from_design_not_overloaded`: classify a single entity
selected out of a design unit. -/
def from_design_not_overloaded (ent : Ent) : Except String ResolvedName :=
  match ent.kind with
  | .objectKind objClass mode typeMark =>
    .ok (.objectName
      { base := .object { id := ent.id, objClass := objClass, mode := mode, typeMark := typeMark },
        typeMark := none })
  | .objectAliasKind baseObject typeMark =>
    .ok (.objectName { base := .objectAlias baseObject ent.id, typeMark := some typeMark })
  | .externalAliasKind objClass typeMark =>
    .ok (.objectName { base := .externalName objClass, typeMark := some typeMark })
  | .deferredConstantKind typeMark =>
    .ok (.objectName { base := .deferredConstant ent.id, typeMark := some typeMark })
  | .typeKind typ => .ok (.typeName typ)
  | .overloadedKind _ =>
    .error "Internal error. Unreachable as overloaded is handled outside"
  | .fileKind _ => .ok (.finalName ent)
  | .interfaceFileKind _ => .ok (.finalName ent)
  | .componentKind => .ok (.finalName ent)
  | .physicalLiteralKind _ => .ok (.finalName ent)
  | .designKind => .error (EntKind.describe ent.kind ++ " cannot be selected from design unit")
  | .libraryKind _ => .error (EntKind.describe ent.kind ++ " cannot be selected from design unit")
  | .attributeKind => .error (EntKind.describe ent.kind ++ " cannot be selected from design unit")
  | .elementDeclarationKind _ =>
    .error (EntKind.describe ent.kind ++ " cannot be selected from design unit")
  | .labelKind => .error (EntKind.describe ent.kind ++ " cannot be selected from design unit")
  | .loopParameterKind =>
    .error (EntKind.describe ent.kind ++ " cannot be selected from design unit")

/-- `ResolvedName::from_scope_not_overloaded`: classify a single entity looked
up from the current scope. -/
def from_scope_not_overloaded (ent : Ent) : Except String ResolvedName :=
  match ent.kind with
  | .objectKind objClass mode typeMark =>
    .ok (.objectName
      { base := .object { id := ent.id, objClass := objClass, mode := mode, typeMark := typeMark },
        typeMark := none })
  | .objectAliasKind baseObject typeMark =>
    .ok (.objectName { base := .objectAlias baseObject ent.id, typeMark := some typeMark })
  | .externalAliasKind objClass typeMark =>
    .ok (.objectName { base := .externalName objClass, typeMark := some typeMark })
  | .deferredConstantKind typeMark =>
    .ok (.objectName { base := .deferredConstant ent.id, typeMark := some typeMark })
  | .typeKind typ => .ok (.typeName typ)
  | .designKind => .ok (.design { id := ent.id })
  | .libraryKind sym => .ok (.library sym)
  | .overloadedKind _ =>
    .error "Internal error. Unreachable as overloded is handled outside this function"
  | .fileKind _ => .ok (.finalName ent)
  | .interfaceFileKind _ => .ok (.finalName ent)
  | .componentKind => .ok (.finalName ent)
  | .labelKind => .ok (.finalName ent)
  | .loopParameterKind => .ok (.finalName ent)
  | .physicalLiteralKind _ => .ok (.finalName ent)
  | .attributeKind =>
    .error (EntKind.describe ent.kind ++ " should never be looked up from the current scope")
  | .elementDeclarationKind _ =>
    .error (EntKind.describe ent.kind ++ " should never be looked up from the current scope")

/-- Modelled from the spec: `TypeEnt::selected` of the entity model
(`named_entity.rs`, not under `src/`): selection on a record type yields the
record element, on a protected type the method bundle, anything else is an
invalid selection. -/
def type_selected (ctx : Ctx) (pfxPos : Pos) (t : TypeId) (sdes : SuffixDes) :
    Except Diag TypedSelection :=
  match ctx.types.kind (base_type ctx.types t) with
  | .recordKind fields =>
    match fields.find? (fun f => f.1 == sdes.des) with
    | some (_, elemId, typeMark) => .ok (.recordElement elemId typeMark)
    | none => .error (Diag.mkError sdes.pos ("No declaration of " ++ sdes.des))
  | .protectedKind methods =>
    match methods.find? (fun m => m.1 == sdes.des) with
    | some (_, bundle) => .ok (.protectedMethod bundle)
    | none => .error (Diag.mkError sdes.pos ("No declaration of " ++ sdes.des))
  | _ =>
    .error (Diag.mkError pfxPos (ctx.describeType t ++ " cannot be selected"))

/-- The target type handed to the overload disambiguator: the caller-supplied
target type only at the outermost suffix application. -/
def disamb_target (hasSuffix : Bool) (ttyp : Option TypeId) : Option TypeId :=
  match hasSuffix with
  | true => none
  | false => ttyp

/-- The value the fast path of `name_resolve_with_suffixes` reads from the
already-resolved prefix node: the slot write made while resolving it, falling
back to the node's initial slot value. -/
def effective_suffix_ref (pfxWrite : Option Nat) (pfx : Name) : Option Nat :=
  match pfxWrite with
  | some v => some v
  | none => get_suffix_reference pfx

/-- Result of the collapse-overloaded step of the driver. -/
inductive CollapseResult where
  | cont (resolved : ResolvedName)
  | exitNone (extraDiags : List Diag)
  | exitErr (d : Diag)

/-- The collapse step of the driver (any suffix other than a call must
collapse an overloaded prefix): disambiguate with no actuals and no target
type; an ambiguous prefix aborts silently, a procedure aborts with the
procedure diagnostic, a function becomes an expression of its return type. -/
def collapse_overloaded (ctx : Ctx) (pfxPos : Pos) (sfx : Suffix)
    (resolved : ResolvedName) : CollapseResult :=
  if sfx.isCallOrIndexed then .cont resolved
  else
    match resolved with
    | .overloadedName des overloaded =>
      match ctx.disambiguateNoActuals des none overloaded with
      | .error d => .exitErr d
      | .ok none => .cont resolved
      | .ok (some (.ambiguous _)) => .exitNone []
      | .ok (some (.unambiguous ent)) =>
        match ent.returnType with
        | some typ => .cont (.expression (.unambiguous typ))
        | none =>
          .exitNone
            [Diag.mkError pfxPos "Procedure calls are not valid in names and expressions"]
    | _ => .cont resolved

/-- The full-disambiguation arm of the call-or-indexed case of the driver; the
write of the chosen entity into the prefix node's slot is not recorded because
nothing reads that slot after this point in a resolution. -/
def call_disambiguate (ctx : Ctx) (namePos pfxPos : Pos) (des : DesWithPos)
    (assocs : List AssociationElement) (target : Option TypeId)
    (overloaded : List OEnt) (pdiags : List Diag) : RRes :=
  match ctx.disambiguate namePos des assocs target overloaded with
  | (.error d, ds) => (.err d, pdiags ++ ds, none)
  | (.ok (some (.ambiguous _)), ds) => (.ok none, pdiags ++ ds, none)
  | (.ok (some (.unambiguous ent)), ds) =>
    match ent.returnType with
    | some returnType =>
      (.ok (some (.expression (.unambiguous returnType))), pdiags ++ ds, none)
    | none =>
      (.ok none,
        pdiags ++ ds ++
          [Diag.mkError pfxPos "Procedure calls are not valid in names and expressions"],
        none)
  | (.ok none, ds) => (.ok none, pdiags ++ ds, none)

/-- The indexed-name arm of the call-or-indexed case of
`resolve_typed_suffix`: analyze the actuals, require an array type, check the
rank against the number of associations. -/
def indexed_part (ctx : Ctx) (namePos : Pos) (pfxTyp : TypeId)
    (assocs : List AssociationElement) (ds : List Diag) : TMRes :=
  if could_be_indexed_name assocs then
    let ads := ctx.analyzeAssocElems assocs
    match array_type ctx.types pfxTyp with
    | some (elemType, numIndexes) =>
      if assocs.length ≠ numIndexes then
        (.err (Diag.dimension_mismatch ctx namePos pfxTyp assocs.length numIndexes),
          ds ++ ads, none)
      else (.ok (some (.typeResult elemType)), ds ++ ads, none)
    | none => (.ok none, ds ++ ads, none)
  else (.ok none, ds, none)

mutual
/-- `name_resolve_with_suffixes`: the resolver driver.  A bare designator is
looked up from scope and classified; an external name resolves its subtype
indication; a suffixed name first resolves its prefix with no target type and
the outer-suffix flag set, then continues in `after_pfx_resolved`. -/
def name_resolve_with_suffixes (ctx : Ctx) (fuel : Nat) (namePos : Pos)
    (name : Name) (ttyp : Option TypeId) (hasSuffix : Bool) : RRes :=
  match fuel with
  | 0 => (.outOfFuel, [], none)
  | f + 1 =>
    match split_name name with
    | .designatorSplit des _ =>
      match ctx.lookup namePos des with
      | .error d => (.err d, [], none)
      | .ok (.single ent) =>
        match from_scope_not_overloaded ent with
        | .error msg => (.err (Diag.mkError namePos msg), [], some ent.id)
        | .ok resolved => (.ok (some resolved), [], some ent.id)
      | .ok (.overloaded overloaded) =>
        (.ok (some (.overloadedName { des := des, pos := namePos } overloaded)), [], none)
    | .externalSplit objClass subtype =>
      match ctx.resolveSubtypeIndication subtype with
      | (.error d, ds) => (.err d, ds, none)
      | (.ok typeMark, ds) =>
        (.ok (some (.objectName { base := .externalName objClass, typeMark := some typeMark })),
          ds, none)
    | .suffixSplit pfxPos pfx sfx =>
      match name_resolve_with_suffixes ctx f pfxPos pfx none true with
      | (.ok (some resolved), pdiags, pfxWrite) =>
        after_pfx_resolved ctx f namePos pfxPos pfx sfx (disamb_target hasSuffix ttyp)
          resolved pdiags pfxWrite
      | (.ok none, pdiags, _) => (.ok none, pdiags, none)
      | (.err d, pdiags, _) => (.err d, pdiags, none)
      | (.panicked, pdiags, _) => (.panicked, pdiags, none)
      | (.outOfFuel, pdiags, _) => (.outOfFuel, pdiags, none)
termination_by 10 * fuel

/-- The part of `name_resolve_with_suffixes` that runs after the prefix has
resolved: collapse an overloaded prefix unless the suffix is a call, handle an
attribute suffix (analyzed but not resolved), then dispatch on the kind of the
resolved prefix. -/
def after_pfx_resolved (ctx : Ctx) (fuel : Nat) (namePos pfxPos : Pos)
    (pfx : Name) (sfx : Suffix) (target : Option TypeId)
    (resolved0 : ResolvedName) (pdiags : List Diag) (pfxWrite : Option Nat) : RRes :=
  match collapse_overloaded ctx pfxPos sfx resolved0 with
  | .exitErr d => (.err d, pdiags, none)
  | .exitNone extraDiags => (.ok none, pdiags ++ extraDiags, none)
  | .cont resolved =>
    match sfx with
    | .attributeSuffix signature expr =>
      let ds1 :=
        match signature with
        | some s =>
          match ctx.resolveSignature s with
          | .error d => [d]
          | .ok _ => []
        | none => []
      let ds2 :=
        match expr with
        | some e => ctx.analyzeExpression e
        | none => []
      (.ok none, pdiags ++ ds1 ++ ds2, none)
    | _ =>
      match resolved with
      | .overloadedName des overloaded =>
        match sfx with
        | .callOrIndexedSuffix assocs =>
          match effective_suffix_ref pfxWrite pfx with
          | some id =>
            match ctx.arena id with
            | .overloadedKind (some returnType) =>
              (.ok (some (.expression (.unambiguous returnType))), pdiags, none)
            | .overloadedKind none => (.panicked, pdiags, none)
            | _ => call_disambiguate ctx namePos pfxPos des assocs target overloaded pdiags
          | none => call_disambiguate ctx namePos pfxPos des assocs target overloaded pdiags
        | _ =>
          (.ok none,
            pdiags ++ [Diag.unreachableDiag namePos "CallOrIndexed should already be handled"],
            none)
      | .objectName o =>
        match o.type_mark with
        | none => (.panicked, pdiags, none)
        | some pfxTyp =>
          typed_suffix_branch ctx fuel pfxPos namePos pfxTyp sfx (.objectName o)
            (fun typ => .objectName (o.with_suffix typ)) pdiags
      | .expression (.unambiguous pfxTyp) =>
        typed_suffix_branch ctx fuel pfxPos namePos pfxTyp sfx
          (.expression (.unambiguous pfxTyp))
          (fun typ => .expression (.unambiguous typ)) pdiags
      | .expression (.ambiguous _) => (.ok none, pdiags, none)
      | .library sym =>
        match sfx with
        | .selectedSuffix sdes =>
          match ctx.lookupInLibrary sym sdes.pos sdes.des with
          | .error d => (.err d, pdiags, none)
          | .ok designEnt => (.ok (some (.design designEnt)), pdiags, some designEnt.id)
        | _ => (.err (cannot_be_pfx ctx namePos (.library sym) sfx), pdiags, none)
      | .design designEnt =>
        match sfx with
        | .selectedSuffix sdes =>
          match ctx.designSelected designEnt pfxPos sdes.des with
          | .error d => (.err d, pdiags, none)
          | .ok named =>
            match named with
            | .single ent =>
              match from_design_not_overloaded ent with
              | .error msg => (.err (Diag.mkError sdes.pos msg), pdiags, named.uniqueId)
              | .ok resolvedNew => (.ok (some resolvedNew), pdiags, named.uniqueId)
            | .overloaded overloaded =>
              (.ok (some (.overloadedName { des := sdes.des, pos := sdes.pos } overloaded)),
                pdiags, named.uniqueId)
        | _ => (.err (cannot_be_pfx ctx namePos (.design designEnt) sfx), pdiags, none)
      | .typeName typ =>
        match sfx with
        | .callOrIndexedSuffix assocs =>
          if assocs.length = 1 ∧ could_be_indexed_name assocs then
            (.ok (some (.expression (.unambiguous typ))), pdiags, none)
          else
            (.err (cannot_be_pfx ctx namePos (.typeName typ) (.callOrIndexedSuffix assocs)),
              pdiags, none)
        | _ => (.err (cannot_be_pfx ctx namePos (.typeName typ) sfx), pdiags, none)
      | .finalName ent =>
        (.err (cannot_be_pfx ctx namePos (.finalName ent) sfx), pdiags, none)
termination_by 10 * fuel + 5

/-- The shared typed-suffix dispatch of the driver: apply the suffix to the
type of the resolved prefix (an object name or an unambiguous expression),
wrapping a new type with `wrap`, turning a protected-method bundle into an
overloaded name, and turning `None` into the cannot-be-prefix error at the
prefix. -/
def typed_suffix_branch (ctx : Ctx) (fuel : Nat) (pfxPos namePos : Pos)
    (pfxTyp : TypeId) (sfx : Suffix) (resolved : ResolvedName)
    (wrap : TypeId → ResolvedName) (pdiags : List Diag) : RRes :=
  match resolve_typed_suffix ctx fuel pfxPos namePos pfxTyp sfx with
  | (.ok (some (.typeResult typ)), ds, w) => (.ok (some (wrap typ)), pdiags ++ ds, w)
  | (.ok (some (.methodResult des methods)), ds, w) =>
    (.ok (some (.overloadedName des methods)), pdiags ++ ds, w)
  | (.ok none, ds, w) => (.err (cannot_be_pfx ctx pfxPos resolved sfx), pdiags ++ ds, w)
  | (.err d, ds, w) => (.err d, pdiags ++ ds, w)
  | (.panicked, ds, w) => (.panicked, pdiags ++ ds, w)
  | (.outOfFuel, ds, w) => (.outOfFuel, pdiags ++ ds, w)
termination_by 10 * fuel + 4

/-- `resolve_typed_suffix`: apply one suffix to a prefix known to have a type
(an object or a function result). -/
def resolve_typed_suffix (ctx : Ctx) (fuel : Nat) (pfxPos namePos : Pos)
    (pfxTyp : TypeId) (sfx : Suffix) : TMRes :=
  match sfx with
  | .selectedSuffix sdes =>
    match type_selected ctx pfxPos pfxTyp sdes with
    | .error d => (.err d, [], none)
    | .ok (.recordElement elemId typeMark) =>
      (.ok (some (.typeResult typeMark)), [], some elemId)
    | .ok (.protectedMethod methods) =>
      (.ok (some (.methodResult { des := sdes.des, pos := sdes.pos } methods)), [], none)
  | .allSuffix => (.ok ((accessed_type ctx.types pfxTyp).map .typeResult), [], none)
  | .sliceSuffix range =>
    match sliced_as ctx.types pfxTyp with
    | some typ => (.ok (some (.typeResult typ)), ctx.analyzeDiscreteRange range, none)
    | none => (.ok none, [], none)
  | .attributeSuffix _ _ => (.ok none, [], none)
  | .callOrIndexedSuffix assocs =>
    match sliced_as ctx.types pfxTyp with
    | some typ =>
      match assoc_as_discrete_range_type ctx fuel assocs with
      | (.err d, ds) => (.err d, ds, none)
      | (.panicked, ds) => (.panicked, ds, none)
      | (.outOfFuel, ds) => (.outOfFuel, ds, none)
      | (.ok (some _), ds) => (.ok (some (.typeResult typ)), ds, none)
      | (.ok none, ds) => indexed_part ctx namePos pfxTyp assocs ds
    | none => indexed_part ctx namePos pfxTyp assocs []
termination_by 10 * fuel + 3

/-- `assoc_as_discrete_range_type`: an array may be sliced with a type name,
which parses as a call or indexed name with a single positional expression. -/
def assoc_as_discrete_range_type (ctx : Ctx) (fuel : Nat)
    (assocs : List AssociationElement) : Outcome (Option TypeId) × List Diag :=
  if !could_be_indexed_name assocs then (.ok none, [])
  else
    match assocs with
    | [.mk _ actualPos (.expression e)] =>
      expr_as_discrete_range_type ctx fuel actualPos e
    | _ => (.ok none, [])
termination_by 10 * fuel + 2

/-- `expr_as_discrete_range_type`: a selected name resolving to a type whose
base is an enumeration or integer type denotes a discrete range; any other
type name is an error, anything else is not a discrete-range type. -/
def expr_as_discrete_range_type (ctx : Ctx) (fuel : Nat) (exprPos : Pos)
    (e : Expr) : Outcome (Option TypeId) × List Diag :=
  match e with
  | .nameExpr n =>
    if !is_selected_name n then (.ok none, [])
    else
      match name_resolve_with_suffixes ctx fuel exprPos n none false with
      | (.err d, ds, _) => (.err d, ds)
      | (.panicked, ds, _) => (.panicked, ds)
      | (.outOfFuel, ds, _) => (.outOfFuel, ds)
      | (.ok resolved, ds, _) =>
        match resolved with
        | some (.typeName typ) =>
          if is_discrete ctx.types typ then (.ok (some typ), ds)
          else
            (.err (Diag.mkError exprPos
              (ctx.describeType typ ++ " cannot be used as a discrete range")), ds)
        | _ => (.ok none, ds)
  | .otherExpr _ => (.ok none, [])
termination_by 10 * fuel + 1
end

/-- `name_resolve`: the derived entry point with no target type and no outer
suffix. -/
def name_resolve (ctx : Ctx) (fuel : Nat) (namePos : Pos) (name : Name) : RRes :=
  name_resolve_with_suffixes ctx fuel namePos name none false

/-- `name_to_unambiguous_type`: turn a resolved name into a type given the
target type of the context.  The second component is the value written (if
any) into the optional suffix-reference slot the caller handed in;
`suffixRefGiven` states whether a slot was handed in at all. -/
def name_to_unambiguous_type (ctx : Ctx) (pos : Pos) (name : ResolvedName)
    (ttyp : TypeId) (suffixRefGiven : Bool) :
    Outcome (Option TypeId) × Option Nat :=
  match name with
  | .library sym =>
    (.err (Diag.mkError pos
      (ResolvedName.describe_type ctx (.library sym) ++ " cannot be used in an expression")),
      none)
  | .design ent =>
    (.err (Diag.mkError pos
      (ResolvedName.describe_type ctx (.design ent) ++ " cannot be used in an expression")),
      none)
  | .typeName typ =>
    (.err (Diag.mkError pos
      (ResolvedName.describe_type ctx (.typeName typ) ++ " cannot be used in an expression")),
      none)
  | .finalName ent =>
    match ent.kind with
    | .loopParameterKind => (.ok none, none)
    | .physicalLiteralKind typ => (.ok (some typ), none)
    | .fileKind typeMark => (.ok (some typeMark), none)
    | .interfaceFileKind typ => (.ok (some typ), none)
    | _ =>
      (.err (Diag.mkError pos
        (ResolvedName.describe_type ctx (.finalName ent) ++ " cannot be used in an expression")),
        none)
  | .overloadedName des overloaded =>
    match ctx.disambiguateNoActuals des (some ttyp) overloaded with
    | .error d => (.err d, none)
    | .ok none => (.ok none, none)
    | .ok (some (.unambiguous ent)) =>
      let write := if suffixRefGiven then some ent.id else none
      match ent.returnType with
      | some returnType => (.ok (some returnType), write)
      | none => (.panicked, write)
    | .ok (some (.ambiguous candidates)) =>
      (.err (Diag.ambiguous_call ctx des candidates), none)
  | .objectName o =>
    match o.type_mark with
    | some typeMark => (.ok (some typeMark), none)
    | none => (.panicked, none)
  | .expression (.unambiguous typ) => (.ok (some typ), none)
  | .expression (.ambiguous _) => (.ok none, none)

/-- `TypedSelection::into_any`: a record element becomes a single
element-declaration entity, a protected method bundle stays overloaded. -/
def TypedSelection.into_any : TypedSelection → NamedEntities
  | .recordElement elemId typeMark => .single { id := elemId, kind := .elementDeclarationKind typeMark }
  | .protectedMethod methods => .overloaded methods

/-- Modelled from the spec: `Diagnostic::invalid_selected_name_prefix`. -/
def invalid_selected_name_pfx (ctx : Ctx) (ent : Ent) (pfxPos : Pos) : Diag :=
  Diag.mkError pfxPos (ctx.describeEnt ent.id ++ " may not be the prefix of a selected name")

/-- `lookup_selected`: structural selection from a non-overloaded entity. -/
def lookup_selected (ctx : Ctx) (pfxPos : Pos) (ent : Ent) (sdes : SuffixDes) :
    Except Diag NamedEntities :=
  match ent.kind with
  | .libraryKind sym =>
    match ctx.lookupInLibrary sym sdes.pos sdes.des with
    | .error d => .error d
    | .ok designEnt => .ok (.single { id := designEnt.id, kind := .designKind })
  | .objectKind _ _ typeMark =>
    (type_selected ctx pfxPos typeMark sdes).map TypedSelection.into_any
  | .objectAliasKind _ typeMark =>
    (type_selected ctx pfxPos typeMark sdes).map TypedSelection.into_any
  | .externalAliasKind _ typeMark =>
    (type_selected ctx pfxPos typeMark sdes).map TypedSelection.into_any
  | .elementDeclarationKind typeMark =>
    (type_selected ctx pfxPos typeMark sdes).map TypedSelection.into_any
  | .designKind => ctx.designSelected { id := ent.id } pfxPos sdes.des
  | _ => .error (invalid_selected_name_pfx ctx ent pfxPos)

/-- `resolve_name`: the best-effort fallback traversal.  It performs no
overload collapsing and no suffix application: designators are looked up,
selected-name chains walk `lookup_selected`, every other form analyzes its
sub-parts and returns no entity.  Failures are pushed and swallowed. -/
def resolve_name (ctx : Ctx) (namePos : Pos) (name : Name) :
    Outcome (Option NamedEntities) × List Diag × Option Nat :=
  match name with
  | .selected pfxPos pfx sdes =>
    match resolve_name ctx pfxPos pfx with
    | (.ok (some (.single ent)), ds, _) =>
      match lookup_selected ctx pfxPos ent sdes with
      | .ok visible => (.ok (some visible), ds, visible.uniqueId)
      | .error d => (.ok none, ds ++ [d], none)
    | (.ok (some (.overloaded _)), ds, _) => (.ok none, ds, none)
    | (.ok none, ds, _) => (.ok none, ds, none)
    | (.err d, ds, _) => (.err d, ds, none)
    | (.panicked, ds, _) => (.panicked, ds, none)
    | (.outOfFuel, ds, _) => (.outOfFuel, ds, none)
  | .selectedAll pfxPos pfx =>
    match resolve_name ctx pfxPos pfx with
    | (.err d, ds, _) => (.err d, ds, none)
    | (.panicked, ds, _) => (.panicked, ds, none)
    | (.outOfFuel, ds, _) => (.outOfFuel, ds, none)
    | (.ok _, ds, _) => (.ok none, ds, none)
  | .designator des _ =>
    match ctx.lookup namePos des with
    | .ok visible => (.ok (some visible), [], visible.uniqueId)
    | .error d => (.ok none, [d], none)
  | .sliceName pfxPos pfx range =>
    match resolve_name ctx pfxPos pfx with
    | (.err d, ds, _) => (.err d, ds, none)
    | (.panicked, ds, _) => (.panicked, ds, none)
    | (.outOfFuel, ds, _) => (.outOfFuel, ds, none)
    | (.ok _, ds, _) => (.ok none, ds ++ ctx.analyzeDiscreteRange range, none)
  | .attributeName pfxPos pfx signature expr =>
    match resolve_name ctx pfxPos pfx with
    | (.err d, ds, _) => (.err d, ds, none)
    | (.panicked, ds, _) => (.panicked, ds, none)
    | (.outOfFuel, ds, _) => (.outOfFuel, ds, none)
    | (.ok _, ds, _) =>
      let ds1 :=
        match signature with
        | some s =>
          match ctx.resolveSignature s with
          | .error d => [d]
          | .ok _ => []
        | none => []
      let ds2 :=
        match expr with
        | some e => ctx.analyzeExpression e
        | none => []
      (.ok none, ds ++ ds1 ++ ds2, none)
  | .callOrIndexed pfxPos pfx parameters =>
    match resolve_name ctx pfxPos pfx with
    | (.err d, ds, _) => (.err d, ds, none)
    | (.panicked, ds, _) => (.panicked, ds, none)
    | (.outOfFuel, ds, _) => (.outOfFuel, ds, none)
    | (.ok _, ds, _) => (.ok none, ds ++ ctx.analyzeAssocElems parameters, none)
  | .external _ subtype =>
    (.ok none, ctx.analyzeSubtypeIndication subtype, none)

/-! ### Concrete fixtures

A small concrete context used by counterexamples and witnesses: an integer
type (1), a one-dimensional integer vector (2), a real type (3), a
two-dimensional integer matrix (4), an access-to-vector type (5), an integer
subtype (6), a record type (7), a variable of each array type, a function and
a procedure. -/

/-- Concrete type arena of the fixtures. -/
def testTypes : TypeArena where
  kind := fun t =>
    if t = 1 then .integerKind
    else if t = 2 then .arrayKind 1 1
    else if t = 3 then .realKind
    else if t = 4 then .arrayKind 2 1
    else if t = 5 then .accessKind 2
    else if t = 6 then .subtypeKind 1
    else if t = 7 then .recordKind [("field", 70, 1)]
    else .incompleteKind
  base := fun t => if t = 6 then 1 else t
  declPos := fun _ => none

/-- The variable `c0 : integer_vector`. -/
def entC0 : Ent := { id := 10, kind := .objectKind .variableClass none 2 }

/-- A concrete label entity. -/
def entLabel : Ent := { id := 11, kind := .labelKind }

/-- The variable `m` of the two-dimensional array type. -/
def entM : Ent := { id := 12, kind := .objectKind .variableClass none 4 }

/-- A function entity returning the integer type. -/
def oFun : OEnt := { id := 20, returnType := some 1 }

/-- A procedure entity (no return type). -/
def oProc : OEnt := { id := 21, returnType := none }

/-- Overload selection of the fixture disambiguator: keep the candidates
whose return type matches the target (all of them when there is none), then
report the unique one, an ambiguity, or no candidate. -/
def pickOverload (target : Option TypeId) (overloaded : List OEnt) :
    Option Disambiguated :=
  let kept :=
    match target with
    | some t => overloaded.filter fun e => e.returnType = some t
    | none => overloaded
  match kept with
  | [] => none
  | [ent] => some (.unambiguous ent)
  | l => some (.ambiguous l)

/-- Concrete context of the fixtures. -/
def testCtx : Ctx where
  types := testTypes
  arena := fun id =>
    if id = 10 then entC0.kind
    else if id = 12 then entM.kind
    else if id = 20 then .overloadedKind (some 1)
    else if id = 21 then .overloadedKind none
    else if id = 40 then .designKind
    else if id = 41 then .objectKind .constantClass none 2
    else .componentKind
  lookup := fun pos des =>
    if des = "c0" then .ok (.single entC0)
    else if des = "m" then .ok (.single entM)
    else if des = "lbl" then .ok (.single entLabel)
    else if des = "lib" then .ok (.single { id := 42, kind := .libraryKind "lib" })
    else if des = "proc" then .ok (.overloaded [oProc])
    else if des = "fun1" then .ok (.overloaded [oFun])
    else if des = "sub_t" then .ok (.single { id := 32, kind := .typeKind 6 })
    else if des = "real" then .ok (.single { id := 31, kind := .typeKind 3 })
    else .error (Diag.mkError pos ("No declaration of " ++ des))
  lookupInLibrary := fun sym pos des =>
    if sym = "lib" ∧ des = "pkg" then .ok { id := 40 }
    else .error (Diag.mkError pos ("No primary unit " ++ des))
  designSelected := fun designEnt pos des =>
    if designEnt.id = 40 ∧ des = "c0" then
      .ok (.single { id := 41, kind := .objectKind .constantClass none 2 })
    else if designEnt.id = 40 ∧ des = "proc" then .ok (.overloaded [oProc])
    else .error (Diag.mkError pos ("No declaration of " ++ des))
  disambiguateNoActuals := fun _ target overloaded => .ok (pickOverload target overloaded)
  disambiguate := fun _ _ _ target overloaded => (.ok (pickOverload target overloaded), [])
  resolveSubtypeIndication := fun _ => (.ok 2, [])
  resolveSignature := fun _ => .ok ()
  analyzeExpression := fun _ => []
  analyzeAssocElems := fun _ => []
  analyzeDiscreteRange := fun _ => []
  analyzeSubtypeIndication := fun _ => []
  describeEnt := fun id => "entity " ++ toString id
  describeType := fun t => "type " ++ toString t
  designatorOf := fun id => "designator " ++ toString id

/-- A positional association whose actual is an opaque expression. -/
def posAssoc (tag : Nat) : AssociationElement := .mk none 100 (.expression (.otherExpr tag))

/-- A positional association whose actual is the name `real`. -/
def realAssoc : AssociationElement := .mk none 101 (.expression (.nameExpr (.designator "real" none)))

/-- A positional association whose actual is the name `sub_t`. -/
def subTAssoc : AssociationElement := .mk none 102 (.expression (.nameExpr (.designator "sub_t" none)))

/-! ### C1 — the two classifiers -/

/-- The entity kinds on which the two classifiers return identical results
(both succeed with the same classification, or both reject). -/
def kind_agrees : EntKind → Bool
  | .objectKind _ _ _ => true
  | .objectAliasKind _ _ => true
  | .externalAliasKind _ _ => true
  | .deferredConstantKind _ => true
  | .typeKind _ => true
  | .fileKind _ => true
  | .interfaceFileKind _ => true
  | .componentKind => true
  | .physicalLiteralKind _ => true
  | _ => false

/-- C1, counterexample: a label entity is classified `Final` when looked up
from scope but is an error when selected out of a design unit, so the claimed
agreement on Label (and LoopParameter) fails. -/
theorem C1_counterexample :
    from_scope_not_overloaded entLabel = .ok (.finalName entLabel) ∧
    from_design_not_overloaded entLabel =
      .error "label cannot be selected from design unit" := by
  constructor <;> rfl

/-- C1, amended: File, InterfaceFile, Component and PhysicalLiteral are
`Final` from both classifiers; Label and LoopParameter are `Final` from scope
but errors from a design unit; Library and Design are valid from scope only;
Attribute and ElementDeclaration are valid from neither; on every other kind
the two classifiers agree exactly. -/
theorem C1_classifiers (e : Ent) :
    ((∃ tm, e.kind = .fileKind tm) ∨ (∃ t, e.kind = .interfaceFileKind t) ∨
        e.kind = .componentKind ∨ (∃ t, e.kind = .physicalLiteralKind t) →
      from_scope_not_overloaded e = .ok (.finalName e) ∧
      from_design_not_overloaded e = .ok (.finalName e)) ∧
    (e.kind = .labelKind ∨ e.kind = .loopParameterKind →
      from_scope_not_overloaded e = .ok (.finalName e) ∧
      ∃ msg, from_design_not_overloaded e = .error msg) ∧
    ((∃ sym, e.kind = .libraryKind sym) ∨ e.kind = .designKind →
      (∃ r, from_scope_not_overloaded e = .ok r) ∧
      ∃ msg, from_design_not_overloaded e = .error msg) ∧
    (e.kind = .attributeKind ∨ (∃ tm, e.kind = .elementDeclarationKind tm) →
      (∃ msg, from_scope_not_overloaded e = .error msg) ∧
      ∃ msg, from_design_not_overloaded e = .error msg) ∧
    (kind_agrees e.kind = true →
      from_scope_not_overloaded e = from_design_not_overloaded e) ∧
    ((∃ rt, e.kind = .overloadedKind rt) →
      (∃ msg, from_scope_not_overloaded e = .error msg) ∧
      ∃ msg, from_design_not_overloaded e = .error msg) := by
  obtain ⟨id, k⟩ := e
  cases k <;>
    simp [from_scope_not_overloaded, from_design_not_overloaded, kind_agrees]

/-- C1, witness for the amended theorem at the label entity. -/
theorem C1_classifiers_witness :
    from_scope_not_overloaded entLabel = .ok (.finalName entLabel) ∧
    ∃ msg, from_design_not_overloaded entLabel = .error msg :=
  (C1_classifiers entLabel).2.1 (Or.inl rfl)

/-! ### C2 — indexed names in `resolve_typed_suffix` -/

/-- C2, counterexample: one index applied to a two-dimensional array.  The
function does not return `None` with a pushed diagnostic: it returns the
dimension-mismatch diagnostic as its (non-fatal) error value and pushes
nothing, so the caller propagates that error instead of reporting the prefix
error. -/
theorem C2_counterexample :
    resolve_typed_suffix testCtx 1 1 5 4 (.callOrIndexedSuffix [posAssoc 0]) =
      (.err (Diag.dimension_mismatch testCtx 5 4 1 2), [], none) ∧
    (resolve_typed_suffix testCtx 1 1 5 4 (.callOrIndexedSuffix [posAssoc 0])).1 ≠
      .ok none := by
  constructor
  · simp [resolve_typed_suffix, sliced_as, base_type, testTypes, testCtx,
      assoc_as_discrete_range_type, could_be_indexed_name, posAssoc,
      AssociationElement.formal, AssociationElement.actual, ActualPart.isOpen,
      expr_as_discrete_range_type, indexed_part, array_type]
  · intro h
    rw [show (resolve_typed_suffix testCtx 1 1 5 4
        (.callOrIndexedSuffix [posAssoc 0])).1 =
        .err (Diag.dimension_mismatch testCtx 5 4 1 2) by
      simp [resolve_typed_suffix, sliced_as, base_type, testTypes, testCtx,
        assoc_as_discrete_range_type, could_be_indexed_name, posAssoc,
        AssociationElement.formal, AssociationElement.actual, ActualPart.isOpen,
        expr_as_discrete_range_type, indexed_part, array_type]] at h
    exact Outcome.noConfusion h

/-- C2, amended: for a could-be-indexed suffix on an array prefix (possibly
behind one access level) of rank `rank`, once the typed-slice probe does not
fire: a mismatching index count makes `resolve_typed_suffix` return the
dimension-mismatch diagnostic as a non-fatal error (so the caller propagates
it and does not report the prefix error), and a matching count returns the
array element type. -/
theorem C2_indexed_dimension (ctx : Ctx) (fuel : Nat) (pfxPos namePos : Pos)
    (pfxTyp : TypeId) (assocs : List AssociationElement)
    (elemType : TypeId) (rank : Nat)
    (hidx : could_be_indexed_name assocs = true)
    (harr : array_type ctx.types pfxTyp = some (elemType, rank))
    (hprobe : ∀ t, sliced_as ctx.types pfxTyp = some t →
      (assoc_as_discrete_range_type ctx fuel assocs).1 = .ok none) :
    (assocs.length ≠ rank →
      (resolve_typed_suffix ctx fuel pfxPos namePos pfxTyp
          (.callOrIndexedSuffix assocs)).1 =
        .err (Diag.dimension_mismatch ctx namePos pfxTyp assocs.length rank)) ∧
    (assocs.length = rank →
      (resolve_typed_suffix ctx fuel pfxPos namePos pfxTyp
          (.callOrIndexedSuffix assocs)).1 =
        .ok (some (.typeResult elemType))) := by
  have main : (resolve_typed_suffix ctx fuel pfxPos namePos pfxTyp
      (.callOrIndexedSuffix assocs)).1 =
      (indexed_part ctx namePos pfxTyp assocs
        (match sliced_as ctx.types pfxTyp with
         | some _ => (assoc_as_discrete_range_type ctx fuel assocs).2
         | none => [])).1 := by
    rw [resolve_typed_suffix]
    rcases hsl : sliced_as ctx.types pfxTyp with _ | t
    · simp
    · have hp := hprobe t hsl
      rcases hpr : assoc_as_discrete_range_type ctx fuel assocs with ⟨o, ds⟩
      rw [hpr] at hp
      simp at hp
      subst hp
      simp [hpr]
  constructor <;> intro hlen <;> rw [main] <;>
    simp [indexed_part, hidx, harr, hlen]

/-- C2, witness for the amended theorem: the concrete two-dimensional
mismatch. -/
theorem C2_indexed_dimension_witness :
    (resolve_typed_suffix testCtx 1 1 5 4 (.callOrIndexedSuffix [posAssoc 0])).1 =
      .err (Diag.dimension_mismatch testCtx 5 4 1 2) :=
  (C2_indexed_dimension testCtx 1 1 5 4 [posAssoc 0] 1 2
    (by simp [could_be_indexed_name, posAssoc, AssociationElement.formal,
      AssociationElement.actual, ActualPart.isOpen])
    (by simp [array_type, base_type, testCtx, testTypes])
    (fun t ht => by
      simp [assoc_as_discrete_range_type, could_be_indexed_name, posAssoc,
        AssociationElement.formal, AssociationElement.actual, ActualPart.isOpen,
        expr_as_discrete_range_type])).1 (by simp [posAssoc])

/-! ### C7 — slice suffixes -/

/-- C7: when `sliced_as` yields `T`, a slice suffix returns exactly `T`
unchanged (plus the discrete-range analysis diagnostics); when `sliced_as`
yields nothing, the suffix application returns `None` and the driver turns it
into the cannot-be-sliced error at the prefix, leaving the prefix diagnostics
untouched. -/
theorem C7_slice_preserves_type (ctx : Ctx) (fuel : Nat) (pfxPos namePos : Pos)
    (pfxTyp : TypeId) (range : Nat) :
    (∀ T, sliced_as ctx.types pfxTyp = some T →
      resolve_typed_suffix ctx fuel pfxPos namePos pfxTyp (.sliceSuffix range) =
        (.ok (some (.typeResult T)), ctx.analyzeDiscreteRange range, none)) ∧
    (sliced_as ctx.types pfxTyp = none →
      resolve_typed_suffix ctx fuel pfxPos namePos pfxTyp (.sliceSuffix range) =
        (.ok none, [], none)) ∧
    (∀ (pname : Name) (o : ObjectName) (pds : List Diag) (pw : Option Nat)
        (ttyp : Option TypeId) (hs : Bool),
      name_resolve_with_suffixes ctx fuel pfxPos pname none true =
        (.ok (some (.objectName o)), pds, pw) →
      o.type_mark = some pfxTyp →
      sliced_as ctx.types pfxTyp = none →
      name_resolve_with_suffixes ctx (fuel + 1) namePos
          (.sliceName pfxPos pname range) ttyp hs =
        (.err (Diag.mkError pfxPos
          (ResolvedName.describe_type ctx (.objectName o) ++ " cannot be sliced")),
          pds, none)) := by
  refine ⟨fun T hT => ?_, fun hN => ?_, fun pname o pds pw ttyp hs hres htm hN => ?_⟩
  · simp [resolve_typed_suffix, hT]
  · simp [resolve_typed_suffix, hN]
  · simp [name_resolve_with_suffixes, split_name, hres, after_pfx_resolved,
      collapse_overloaded, Suffix.isCallOrIndexed, htm, typed_suffix_branch,
      resolve_typed_suffix, hN, cannot_be_pfx, suffix_describe]
    rw [String.append_assoc]
    rfl

/-- The object name denoted by the indexed element of `c0`: the variable base
with the authoritative integer type mark. -/
def objC0Elem : ObjectName :=
  { base := .object { id := 10, objClass := .variableClass, mode := none, typeMark := 2 },
    typeMark := some 1 }

/-- C7, witness: the indexed element of `c0` has the scalar integer type,
which cannot be sliced; slicing it is the cannot-be-sliced error. -/
theorem C7_slice_preserves_type_witness :
    name_resolve_with_suffixes testCtx 11 5
        (.sliceName 1 (.callOrIndexed 2 (.designator "c0" none) [posAssoc 0]) 0) none false =
      (.err (Diag.mkError 1
        (ResolvedName.describe_type testCtx (.objectName objC0Elem) ++ " cannot be sliced")),
        [], none) :=
  (C7_slice_preserves_type testCtx 10 1 5 1 0).2.2
    (.callOrIndexed 2 (.designator "c0" none) [posAssoc 0])
    objC0Elem [] none none false
    (by simp [name_resolve_with_suffixes, split_name, testCtx, entC0,
      from_scope_not_overloaded, after_pfx_resolved, collapse_overloaded,
      resolve_typed_suffix, disamb_target, Suffix.isCallOrIndexed,
      ObjectName.type_mark, sliced_as, base_type, testTypes,
      assoc_as_discrete_range_type, could_be_indexed_name, posAssoc,
      AssociationElement.formal, AssociationElement.actual, ActualPart.isOpen,
      expr_as_discrete_range_type, indexed_part, array_type,
      ObjectName.with_suffix, objC0Elem, typed_suffix_branch])
    (by simp [ObjectName.type_mark, objC0Elem])
    (by simp [sliced_as, base_type, testCtx, testTypes])

/-! ### C4 — typed slices -/

/-- C4: a call-or-indexed suffix whose single positional expression is a
selected name resolving to a type name is a typed slice when that type is
discrete (the sliceable prefix type `T` is returned unchanged), and the
cannot-be-used-as-a-discrete-range error when it is not. -/
theorem C4_typed_slice (ctx : Ctx) (fuel : Nat) (pfxPos namePos actualPos : Pos)
    (pfxTyp T typ : TypeId) (n : Name) (ds : List Diag) (w : Option Nat)
    (hsl : sliced_as ctx.types pfxTyp = some T)
    (hsel : is_selected_name n = true)
    (hres : name_resolve_with_suffixes ctx fuel actualPos n none false =
      (.ok (some (.typeName typ)), ds, w)) :
    (is_discrete ctx.types typ = true →
      resolve_typed_suffix ctx fuel pfxPos namePos pfxTyp
          (.callOrIndexedSuffix [.mk none actualPos (.expression (.nameExpr n))]) =
        (.ok (some (.typeResult T)), ds, none)) ∧
    (is_discrete ctx.types typ = false →
      resolve_typed_suffix ctx fuel pfxPos namePos pfxTyp
          (.callOrIndexedSuffix [.mk none actualPos (.expression (.nameExpr n))]) =
        (.err (Diag.mkError actualPos
          (ctx.describeType typ ++ " cannot be used as a discrete range")), ds, none)) := by
  constructor <;> intro hdisc <;>
    simp [resolve_typed_suffix, hsl, assoc_as_discrete_range_type,
      could_be_indexed_name, AssociationElement.formal, AssociationElement.actual,
      ActualPart.isOpen, expr_as_discrete_range_type, hsel, hres, hdisc]

/-- C4, witness: `c0(sub_t)` is a typed slice returning the vector type, and
`c0(real)` is the discrete-range error. -/
theorem C4_typed_slice_witness :
    resolve_typed_suffix testCtx 1 1 5 2 (.callOrIndexedSuffix [subTAssoc]) =
      (.ok (some (.typeResult 2)), [], none) ∧
    resolve_typed_suffix testCtx 1 1 5 2 (.callOrIndexedSuffix [realAssoc]) =
      (.err (Diag.mkError 101 (testCtx.describeType 3 ++ " cannot be used as a discrete range")),
        [], none) := by
  constructor
  · exact (C4_typed_slice testCtx 1 1 5 102 2 2 6 (.designator "sub_t" none) [] (some 32)
      (by simp [sliced_as, base_type, testCtx, testTypes])
      (by simp [is_selected_name])
      (by simp [name_resolve_with_suffixes, split_name, testCtx,
        from_scope_not_overloaded])).1
      (by simp [is_discrete, base_type, testCtx, testTypes])
  · exact (C4_typed_slice testCtx 1 1 5 101 2 2 3 (.designator "real" none) [] (some 31)
      (by simp [sliced_as, base_type, testCtx, testTypes])
      (by simp [is_selected_name])
      (by simp [name_resolve_with_suffixes, split_name, testCtx,
        from_scope_not_overloaded])).2
      (by simp [is_discrete, base_type, testCtx, testTypes])

/-! ### C5 — target-type threading -/

/-- C5: while outer suffixes remain (`hasSuffix = true`) the caller-supplied
target type is ignored entirely, so prefix disambiguation runs with no target
type; and the recursive call on a prefix is made with no target type and the
outer-suffix flag set, the supplied target type entering only through
`disamb_target hasSuffix ttyp`, which is the target type itself exactly at the
outermost application. -/
theorem C5_target_only_outermost :
    (∀ (ctx : Ctx) (fuel : Nat) (namePos : Pos) (name : Name) (ttyp : Option TypeId),
      name_resolve_with_suffixes ctx fuel namePos name ttyp true =
        name_resolve_with_suffixes ctx fuel namePos name none true) ∧
    (∀ (ttyp : Option TypeId), disamb_target true ttyp = none ∧ disamb_target false ttyp = ttyp) ∧
    (∀ (ctx : Ctx) (fuel : Nat) (namePos : Pos) (name : Name) (ttyp : Option TypeId)
        (hasSuffix : Bool) (pfxPos : Pos) (pfx : Name) (sfx : Suffix),
      split_name name = .suffixSplit pfxPos pfx sfx →
      name_resolve_with_suffixes ctx (fuel + 1) namePos name ttyp hasSuffix =
        (match name_resolve_with_suffixes ctx fuel pfxPos pfx none true with
         | (.ok (some resolved), pdiags, pfxWrite) =>
           after_pfx_resolved ctx fuel namePos pfxPos pfx sfx
             (disamb_target hasSuffix ttyp) resolved pdiags pfxWrite
         | (.ok none, pdiags, _) => (.ok none, pdiags, none)
         | (.err d, pdiags, _) => (.err d, pdiags, none)
         | (.panicked, pdiags, _) => (.panicked, pdiags, none)
         | (.outOfFuel, pdiags, _) => (.outOfFuel, pdiags, none))) := by
  refine ⟨fun ctx fuel namePos name ttyp => ?_, fun ttyp => ⟨rfl, rfl⟩,
    fun ctx fuel namePos name ttyp hasSuffix pfxPos pfx sfx hsplit => ?_⟩
  · cases fuel with
    | zero => simp only [name_resolve_with_suffixes]
    | succ f =>
      cases name <;>
        simp only [name_resolve_with_suffixes, split_name, disamb_target]
  · cases name <;> simp only [split_name] at hsplit <;> cases hsplit <;>
      simp only [name_resolve_with_suffixes, split_name]

/-- C5, witness: at a concrete suffixed name the prefix is resolved with no
target type and the outer-suffix flag, and with outer suffixes remaining the
supplied target type is ignored. -/
theorem C5_target_only_outermost_witness :
    name_resolve_with_suffixes testCtx 10 5
        (.callOrIndexed 1 (.designator "fun1" none) [posAssoc 0]) (some 1) true =
      name_resolve_with_suffixes testCtx 10 5
        (.callOrIndexed 1 (.designator "fun1" none) [posAssoc 0]) none true :=
  C5_target_only_outermost.1 testCtx 10 5
    (.callOrIndexed 1 (.designator "fun1" none) [posAssoc 0]) (some 1)

/-! ### C3 — procedures in names and expressions -/

/-- C3: when the overloaded prefix disambiguates unambiguously to a
subprogram without a return type, the driver pushes the procedure-call
diagnostic at the prefix position and produces no resolved name — both on the
collapse path (any suffix other than a call) and, when the fast path does not
fire, on the call-or-indexed path. -/
theorem C3_procedure_diag (ctx : Ctx) (fuel : Nat) (ent : OEnt)
    (hproc : ent.returnType = none) :
    (∀ (namePos pfxPos : Pos) (name pfx : Name) (sfx : Suffix) (pds : List Diag)
        (pw : Option Nat) (des : DesWithPos) (ov : List OEnt)
        (ttyp : Option TypeId) (hs : Bool),
      split_name name = .suffixSplit pfxPos pfx sfx →
      sfx.isCallOrIndexed = false →
      name_resolve_with_suffixes ctx fuel pfxPos pfx none true =
        (.ok (some (.overloadedName des ov)), pds, pw) →
      ctx.disambiguateNoActuals des none ov = .ok (some (.unambiguous ent)) →
      name_resolve_with_suffixes ctx (fuel + 1) namePos name ttyp hs =
        (.ok none,
          pds ++ [Diag.mkError pfxPos "Procedure calls are not valid in names and expressions"],
          none)) ∧
    (∀ (namePos pfxPos : Pos) (pfx : Name) (assocs : List AssociationElement)
        (pds dds : List Diag) (pw : Option Nat) (des : DesWithPos) (ov : List OEnt)
        (ttyp : Option TypeId) (hs : Bool),
      name_resolve_with_suffixes ctx fuel pfxPos pfx none true =
        (.ok (some (.overloadedName des ov)), pds, pw) →
      effective_suffix_ref pw pfx = none →
      ctx.disambiguate namePos des assocs (disamb_target hs ttyp) ov =
        (.ok (some (.unambiguous ent)), dds) →
      name_resolve_with_suffixes ctx (fuel + 1) namePos
          (.callOrIndexed pfxPos pfx assocs) ttyp hs =
        (.ok none,
          pds ++ dds ++
            [Diag.mkError pfxPos "Procedure calls are not valid in names and expressions"],
          none)) := by
  constructor
  · intro namePos pfxPos name pfx sfx pds pw des ov ttyp hs hsplit hnotCall hres hdis
    cases name <;> simp only [split_name] at hsplit <;> cases hsplit <;>
      simp [name_resolve_with_suffixes, split_name, hres, after_pfx_resolved,
        collapse_overloaded, hnotCall, hdis, hproc]
  · intro namePos pfxPos pfx assocs pds dds pw des ov ttyp hs hres hfast hdis
    simp [name_resolve_with_suffixes, split_name, hres, after_pfx_resolved,
      collapse_overloaded, Suffix.isCallOrIndexed, hfast, call_disambiguate,
      hdis, hproc]

/-- C3, witness: `proc.x` (collapse path) and `proc(arg)` (call path) both
push the procedure-call diagnostic at the prefix and resolve to nothing. -/
theorem C3_procedure_diag_witness :
    name_resolve_with_suffixes testCtx 2 5
        (.selected 1 (.designator "proc" none) { pos := 51, des := "x", ref := none })
        none false =
      (.ok none,
        [Diag.mkError 1 "Procedure calls are not valid in names and expressions"], none) ∧
    name_resolve_with_suffixes testCtx 2 5
        (.callOrIndexed 1 (.designator "proc" none) [posAssoc 0]) none false =
      (.ok none,
        [Diag.mkError 1 "Procedure calls are not valid in names and expressions"], none) := by
  constructor
  · exact (C3_procedure_diag testCtx 1 oProc rfl).1 5 1
      (.selected 1 (.designator "proc" none) { pos := 51, des := "x", ref := none })
      (.designator "proc" none) (.selectedSuffix { pos := 51, des := "x", ref := none })
      [] none { des := "proc", pos := 1 } [oProc] none false rfl rfl
      (by simp [name_resolve_with_suffixes, split_name, testCtx])
      (by simp [testCtx, pickOverload])
  · exact (C3_procedure_diag testCtx 1 oProc rfl).2 5 1
      (.designator "proc" none) [posAssoc 0] [] [] none
      { des := "proc", pos := 1 } [oProc] none false
      (by simp [name_resolve_with_suffixes, split_name, testCtx])
      (by simp [effective_suffix_ref, get_suffix_reference])
      (by simp [testCtx, pickOverload, disamb_target])

/-! ### C6 — `name_to_unambiguous_type` on overloaded names -/

/-- C6: the overloaded case of `name_to_unambiguous_type` disambiguates with
the target type; an unambiguous outcome writes the chosen entity id into the
suffix-reference slot exactly when one was given and returns the subprogram's
return type; an ambiguous outcome is the ambiguous-call error; no candidate at
all is `None` with no error. -/
theorem C6_unambiguous_type (ctx : Ctx) (pos : Pos) (des : DesWithPos)
    (ov : List OEnt) (ttyp : TypeId) :
    (∀ (ent : OEnt) (returnType : TypeId),
      ctx.disambiguateNoActuals des (some ttyp) ov = .ok (some (.unambiguous ent)) →
      ent.returnType = some returnType →
      name_to_unambiguous_type ctx pos (.overloadedName des ov) ttyp true =
        (.ok (some returnType), some ent.id) ∧
      name_to_unambiguous_type ctx pos (.overloadedName des ov) ttyp false =
        (.ok (some returnType), none)) ∧
    (∀ (candidates : List OEnt) (suffixRefGiven : Bool),
      ctx.disambiguateNoActuals des (some ttyp) ov = .ok (some (.ambiguous candidates)) →
      name_to_unambiguous_type ctx pos (.overloadedName des ov) ttyp suffixRefGiven =
        (.err (Diag.ambiguous_call ctx des candidates), none)) ∧
    (∀ (suffixRefGiven : Bool),
      ctx.disambiguateNoActuals des (some ttyp) ov = .ok none →
      name_to_unambiguous_type ctx pos (.overloadedName des ov) ttyp suffixRefGiven =
        (.ok none, none)) := by
  refine ⟨fun ent returnType hdis hret => ?_, fun candidates srg hdis => ?_,
    fun srg hdis => ?_⟩ <;>
    simp [name_to_unambiguous_type, hdis]
  simp [hret]

/-- C6, witness: with target type the integer type, `fun1` disambiguates to
the function, its id is written, and the integer type is returned. -/
theorem C6_unambiguous_type_witness :
    name_to_unambiguous_type testCtx 5
        (.overloadedName { des := "fun1", pos := 5 } [oFun, oProc]) 1 true =
      (.ok (some 1), some 20) :=
  ((C6_unambiguous_type testCtx 5 { des := "fun1", pos := 5 } [oFun, oProc] 1).1
    oFun 1 (by simp [testCtx, pickOverload, oFun, oProc]) rfl).1

/-! ### C8 — the `ObjectName` invariant -/

/-- The invariant of `ObjectName`: an absent type mark implies a plain object
base (whose subtype supplies the effective type). -/
def ObjectName.inv (o : ObjectName) : Prop :=
  o.typeMark = none → ∃ obj, o.base = .object obj

/-- The invariant lifted to resolved names. -/
def resolved_obj_inv : ResolvedName → Prop
  | .objectName o => o.inv
  | _ => True

/-- Inversion for the shared typed-suffix dispatch: a resolved result is
either a wrapped type from `resolve_typed_suffix` or a protected-method
bundle; in both cases the reference write is the one of
`resolve_typed_suffix`. -/
theorem typed_suffix_branch_cases (ctx : Ctx) (fuel : Nat) (pfxPos namePos : Pos)
    (pfxTyp : TypeId) (sfx : Suffix) (resolved : ResolvedName)
    (wrap : TypeId → ResolvedName) (pdiags : List Diag) (rn : ResolvedName)
    (ds : List Diag) (w : Option Nat)
    (h : typed_suffix_branch ctx fuel pfxPos namePos pfxTyp sfx resolved wrap pdiags =
      (.ok (some rn), ds, w)) :
    ((∃ typ, rn = wrap typ) ∨ ∃ des methods, rn = .overloadedName des methods) ∧
    (resolve_typed_suffix ctx fuel pfxPos namePos pfxTyp sfx).2.2 = w := by
  rw [typed_suffix_branch.eq_def] at h
  split at h
  · rename_i typ ds1 w1 heq
    simp only [Prod.mk.injEq] at h
    obtain ⟨h1, h2, h3⟩ := h
    simp only [Outcome.ok.injEq, Option.some.injEq] at h1
    exact ⟨Or.inl ⟨typ, h1.symm⟩, by rw [heq]; exact h3⟩
  · rename_i des methods ds1 w1 heq
    simp only [Prod.mk.injEq] at h
    obtain ⟨h1, h2, h3⟩ := h
    simp only [Outcome.ok.injEq, Option.some.injEq] at h1
    exact ⟨Or.inr ⟨des, methods, h1.symm⟩, by rw [heq]; exact h3⟩
  · simp at h
  · simp at h
  · simp at h
  · simp at h

/-- Projection form of `typed_suffix_branch_cases`: shape of the result and
origin of the write from the first component alone. -/
theorem typed_suffix_branch_cases_fst (ctx : Ctx) (fuel : Nat) (pfxPos namePos : Pos)
    (pfxTyp : TypeId) (sfx : Suffix) (resolved : ResolvedName)
    (wrap : TypeId → ResolvedName) (pdiags : List Diag) (rn : ResolvedName)
    (h : (typed_suffix_branch ctx fuel pfxPos namePos pfxTyp sfx resolved wrap pdiags).1 =
      .ok (some rn)) :
    ((∃ typ, rn = wrap typ) ∨ ∃ des methods, rn = .overloadedName des methods) ∧
    (typed_suffix_branch ctx fuel pfxPos namePos pfxTyp sfx resolved wrap pdiags).2.2 =
      (resolve_typed_suffix ctx fuel pfxPos namePos pfxTyp sfx).2.2 := by
  rcases hfull : typed_suffix_branch ctx fuel pfxPos namePos pfxTyp sfx resolved wrap pdiags
    with ⟨o, ds, w⟩
  rw [hfull] at h
  simp only at h
  subst h
  obtain ⟨hshape, hwrite⟩ := typed_suffix_branch_cases _ _ _ _ _ _ _ _ _ _ _ _ hfull
  exact ⟨hshape, by rw [hwrite]⟩

/-- The shared typed-suffix dispatch panics only when `resolve_typed_suffix`
does. -/
theorem typed_suffix_branch_safe (ctx : Ctx) (fuel : Nat) (pfxPos namePos : Pos)
    (pfxTyp : TypeId) (sfx : Suffix) (resolved : ResolvedName)
    (wrap : TypeId → ResolvedName) (pdiags : List Diag)
    (hrts : (resolve_typed_suffix ctx fuel pfxPos namePos pfxTyp sfx).1 ≠ .panicked) :
    (typed_suffix_branch ctx fuel pfxPos namePos pfxTyp sfx resolved wrap pdiags).1 ≠
      .panicked := by
  rw [typed_suffix_branch.eq_def]
  split <;> simp_all

/-- C8: every `ObjectName` built by the two classifiers satisfies the
invariant; `with_suffix` always installs an authoritative type mark; under the
invariant `ObjectName::type_mark()` is total (the `unreachable!` is never
hit); and a typed suffix application on an object-name prefix always returns
an `ObjectName` whose `type_mark` field is present. -/
theorem C8_object_name_inv :
    (∀ (e : Ent) (rn : ResolvedName),
      from_scope_not_overloaded e = .ok rn → resolved_obj_inv rn) ∧
    (∀ (e : Ent) (rn : ResolvedName),
      from_design_not_overloaded e = .ok rn → resolved_obj_inv rn) ∧
    (∀ (o : ObjectName) (t : TypeId), (o.with_suffix t).typeMark = some t) ∧
    (∀ o : ObjectName, o.inv → (ObjectName.type_mark o).isSome) ∧
    (∀ (ctx : Ctx) (fuel : Nat) (namePos pfxPos : Pos) (pfx : Name) (sfx : Suffix)
        (target : Option TypeId) (o o2 : ObjectName) (pds ds : List Diag)
        (pw w : Option Nat),
      after_pfx_resolved ctx fuel namePos pfxPos pfx sfx target (.objectName o) pds pw =
        (.ok (some (.objectName o2)), ds, w) →
      o2.typeMark.isSome) := by
  refine ⟨?_, ?_, ?_, ?_, ?_⟩
  · intro e rn h
    obtain ⟨id, k⟩ := e
    cases k <;> simp [from_scope_not_overloaded] at h <;> subst h <;>
      simp [resolved_obj_inv, ObjectName.inv]
  · intro e rn h
    obtain ⟨id, k⟩ := e
    cases k <;> simp [from_design_not_overloaded] at h <;> subst h <;>
      simp [resolved_obj_inv, ObjectName.inv]
  · intro o t
    simp [ObjectName.with_suffix]
  · intro o hinv
    obtain ⟨base, tm⟩ := o
    cases tm with
    | some t => simp [ObjectName.type_mark]
    | none =>
      obtain ⟨obj, hb⟩ := hinv rfl
      simp at hb
      subst hb
      simp [ObjectName.type_mark]
  · intro ctx fuel namePos pfxPos pfx sfx target o o2 pds ds pw w h
    cases sfx
    case attributeSuffix signature expr =>
      simp [after_pfx_resolved, collapse_overloaded, Suffix.isCallOrIndexed] at h
    all_goals
      simp only [after_pfx_resolved, collapse_overloaded, Suffix.isCallOrIndexed,
        Bool.false_eq_true, if_false, if_true, ite_true, ite_false] at h
    all_goals
      split at h
      · simp at h
      · obtain ⟨hshape, -⟩ := typed_suffix_branch_cases _ _ _ _ _ _ _ _ _ _ _ _ h
        rcases hshape with ⟨typ, htyp⟩ | ⟨des, methods, hover⟩
        · injection htyp with h4
          subst h4
          rfl
        · exact absurd hover (by simp)

/-- The classifier result object for `c0`: a plain object base with no
authoritative type mark. -/
def objC0 : ObjectName :=
  { base := .object { id := 10, objClass := .variableClass, mode := none, typeMark := 2 },
    typeMark := none }

/-- C8, witness: the classifier result for `c0` satisfies the invariant, and
its `type_mark` is defined. -/
theorem C8_object_name_inv_witness :
    resolved_obj_inv (.objectName objC0) ∧ (ObjectName.type_mark objC0).isSome := by
  constructor
  · exact C8_object_name_inv.1 entC0 (.objectName objC0) (by rfl)
  · exact C8_object_name_inv.2.2.2.1 objC0 (fun _ => ⟨_, rfl⟩)

/-! ### C10 — the fallback `resolve_name` -/

/-- The fallback traversal never produces a non-fatal error, a panic or fuel
exhaustion: every failure is pushed to the sink and swallowed as `Ok`. -/
theorem resolve_name_ok (ctx : Ctx) (pos : Pos) (name : Name) :
    ∃ v, (resolve_name ctx pos name).1 = .ok v := by
  cases name with
  | designator des ref =>
    rcases h : ctx.lookup pos des with d | v <;> simp [resolve_name, h]
  | selected ppos pfx sdes =>
    obtain ⟨v, hv⟩ := resolve_name_ok ctx ppos pfx
    rcases hres : resolve_name ctx ppos pfx with ⟨o, ds, w⟩
    rw [hres] at hv
    simp at hv
    subst hv
    rcases v with _ | (ent | ov)
    · simp [resolve_name, hres]
    · rcases h : lookup_selected ctx ppos ent sdes with d | vis <;>
        simp [resolve_name, hres, h]
    · simp [resolve_name, hres]
  | selectedAll ppos pfx =>
    obtain ⟨v, hv⟩ := resolve_name_ok ctx ppos pfx
    rcases hres : resolve_name ctx ppos pfx with ⟨o, ds, w⟩
    rw [hres] at hv
    simp at hv
    subst hv
    simp [resolve_name, hres]
  | sliceName ppos pfx range =>
    obtain ⟨v, hv⟩ := resolve_name_ok ctx ppos pfx
    rcases hres : resolve_name ctx ppos pfx with ⟨o, ds, w⟩
    rw [hres] at hv
    simp at hv
    subst hv
    simp [resolve_name, hres]
  | attributeName ppos pfx signature expr =>
    obtain ⟨v, hv⟩ := resolve_name_ok ctx ppos pfx
    rcases hres : resolve_name ctx ppos pfx with ⟨o, ds, w⟩
    rw [hres] at hv
    simp at hv
    subst hv
    simp [resolve_name, hres]
  | callOrIndexed ppos pfx parameters =>
    obtain ⟨v, hv⟩ := resolve_name_ok ctx ppos pfx
    rcases hres : resolve_name ctx ppos pfx with ⟨o, ds, w⟩
    rw [hres] at hv
    simp at hv
    subst hv
    simp [resolve_name, hres]
  | external objClass subtype => simp [resolve_name]

/-- C10: a selected name whose prefix falls back to an overloaded bundle is
silently `Ok None` with no extra diagnostic and no reference write; the
`SelectedAll`, `Slice`, `Attribute`, `CallOrIndexed` and `External` forms
always produce `Ok None` from `resolve_name`; and only a bare designator or a
selected name can produce a `Some` result. -/
theorem C10_fallback_traversal (ctx : Ctx) :
    (∀ (pos ppos : Pos) (pfx : Name) (sdes : SuffixDes) (ov : List OEnt)
        (ds : List Diag) (w : Option Nat),
      resolve_name ctx ppos pfx = (.ok (some (.overloaded ov)), ds, w) →
      resolve_name ctx pos (.selected ppos pfx sdes) = (.ok none, ds, none)) ∧
    (∀ (pos ppos : Pos) (pfx : Name),
      (resolve_name ctx pos (.selectedAll ppos pfx)).1 = .ok none) ∧
    (∀ (pos ppos : Pos) (pfx : Name) (range : Nat),
      (resolve_name ctx pos (.sliceName ppos pfx range)).1 = .ok none) ∧
    (∀ (pos ppos : Pos) (pfx : Name) (signature : Option Nat) (expr : Option Expr),
      (resolve_name ctx pos (.attributeName ppos pfx signature expr)).1 = .ok none) ∧
    (∀ (pos ppos : Pos) (pfx : Name) (parameters : List AssociationElement),
      (resolve_name ctx pos (.callOrIndexed ppos pfx parameters)).1 = .ok none) ∧
    (∀ (pos : Pos) (objClass : ExternalObjectClass) (subtype : Nat),
      (resolve_name ctx pos (.external objClass subtype)).1 = .ok none) ∧
    (∀ (pos : Pos) (name : Name) (v : NamedEntities),
      (resolve_name ctx pos name).1 = .ok (some v) →
      match name with
      | .designator _ _ => True
      | .selected _ _ _ => True
      | _ => False) := by
  refine ⟨?_, ?_, ?_, ?_, ?_, ?_, ?_⟩
  · intro pos ppos pfx sdes ov ds w hres
    simp [resolve_name, hres]
  · intro pos ppos pfx
    obtain ⟨v, hv⟩ := resolve_name_ok ctx ppos pfx
    rcases hres : resolve_name ctx ppos pfx with ⟨o, ds, w⟩
    rw [hres] at hv
    simp at hv
    subst hv
    simp [resolve_name, hres]
  · intro pos ppos pfx range
    obtain ⟨v, hv⟩ := resolve_name_ok ctx ppos pfx
    rcases hres : resolve_name ctx ppos pfx with ⟨o, ds, w⟩
    rw [hres] at hv
    simp at hv
    subst hv
    simp [resolve_name, hres]
  · intro pos ppos pfx signature expr
    obtain ⟨v, hv⟩ := resolve_name_ok ctx ppos pfx
    rcases hres : resolve_name ctx ppos pfx with ⟨o, ds, w⟩
    rw [hres] at hv
    simp at hv
    subst hv
    simp [resolve_name, hres]
  · intro pos ppos pfx parameters
    obtain ⟨v, hv⟩ := resolve_name_ok ctx ppos pfx
    rcases hres : resolve_name ctx ppos pfx with ⟨o, ds, w⟩
    rw [hres] at hv
    simp at hv
    subst hv
    simp [resolve_name, hres]
  · intro pos objClass subtype
    simp [resolve_name]
  · intro pos name v h
    cases name <;> simp
    case selectedAll ppos pfx =>
      obtain ⟨x, hx⟩ := resolve_name_ok ctx ppos pfx
      rcases hres : resolve_name ctx ppos pfx with ⟨o, ds, w⟩
      rw [hres] at hx
      simp at hx
      subst hx
      simp [resolve_name, hres] at h
    case sliceName ppos pfx range =>
      obtain ⟨x, hx⟩ := resolve_name_ok ctx ppos pfx
      rcases hres : resolve_name ctx ppos pfx with ⟨o, ds, w⟩
      rw [hres] at hx
      simp at hx
      subst hx
      simp [resolve_name, hres] at h
    case attributeName ppos pfx signature expr =>
      obtain ⟨x, hx⟩ := resolve_name_ok ctx ppos pfx
      rcases hres : resolve_name ctx ppos pfx with ⟨o, ds, w⟩
      rw [hres] at hx
      simp at hx
      subst hx
      simp [resolve_name, hres] at h
    case callOrIndexed ppos pfx parameters =>
      obtain ⟨x, hx⟩ := resolve_name_ok ctx ppos pfx
      rcases hres : resolve_name ctx ppos pfx with ⟨o, ds, w⟩
      rw [hres] at hx
      simp at hx
      subst hx
      simp [resolve_name, hres] at h
    case external objClass subtype =>
      simp [resolve_name] at h

/-- C10, witness: the overloaded `proc` as a selected-name prefix yields
`Ok None` silently in the fallback traversal. -/
theorem C10_fallback_traversal_witness :
    resolve_name testCtx 5 (.selected 1 (.designator "proc" none)
        { pos := 51, des := "x", ref := none }) =
      (.ok none, [], none) :=
  (C10_fallback_traversal testCtx).1 5 1 (.designator "proc" none)
    { pos := 51, des := "x", ref := none } [oProc] [] none
    (by simp [resolve_name, testCtx, NamedEntities.uniqueId])

/-! ### C9 — no panics on recoverable input

The three panic sites are the fast-path `return_type().unwrap()`, the
`return_type().unwrap()` after disambiguation with a target type in
`name_to_unambiguous_type`, and the `unreachable!` in
`ObjectName::type_mark()`.  Recoverable input is characterized by: reference
slots already present in the AST only point at subprograms with return types
(they are written by earlier successful resolutions of function calls), and
the external collaborators meet their contracts (`CtxOk`). -/

/-- An arena id that is safe to read as an already-resolved suffix reference:
it is not a return-type-less overloaded entity. -/
def ref_ok (ctx : Ctx) (id : Nat) : Prop :=
  ctx.arena id ≠ .overloadedKind none

/-- Every id a reference write may publish is safe to read back. -/
def write_ok (ctx : Ctx) (w : Option Nat) : Prop :=
  ∀ id, w = some id → ref_ok ctx id

mutual
/-- All reference slots in a name tree hold safe ids. -/
inductive NameRefsOk (ctx : Ctx) : Name → Prop where
  | designator {des ref} : write_ok ctx ref → NameRefsOk ctx (.designator des ref)
  | selected {pfxPos pfx sdes} : NameRefsOk ctx pfx → write_ok ctx sdes.ref →
      NameRefsOk ctx (.selected pfxPos pfx sdes)
  | selectedAll {pfxPos pfx} : NameRefsOk ctx pfx → NameRefsOk ctx (.selectedAll pfxPos pfx)
  | sliceName {pfxPos pfx range} : NameRefsOk ctx pfx →
      NameRefsOk ctx (.sliceName pfxPos pfx range)
  | attributeName {pfxPos pfx signature expr} : NameRefsOk ctx pfx →
      NameRefsOk ctx (.attributeName pfxPos pfx signature expr)
  | callOrIndexed {pfxPos pfx parameters} : NameRefsOk ctx pfx →
      (∀ a, a ∈ parameters → AssocRefsOk ctx a) →
      NameRefsOk ctx (.callOrIndexed pfxPos pfx parameters)
  | external {objClass subtype} : NameRefsOk ctx (.external objClass subtype)

/-- All reference slots in an association element hold safe ids. -/
inductive AssocRefsOk (ctx : Ctx) : AssociationElement → Prop where
  | mk {formal actualPos actual} : ActualRefsOk ctx actual →
      AssocRefsOk ctx (.mk formal actualPos actual)

/-- All reference slots in an actual part hold safe ids. -/
inductive ActualRefsOk (ctx : Ctx) : ActualPart → Prop where
  | expression {e} : ExprRefsOk ctx e → ActualRefsOk ctx (.expression e)
  | openActual : ActualRefsOk ctx .openActual

/-- All reference slots in an expression hold safe ids. -/
inductive ExprRefsOk (ctx : Ctx) : Expr → Prop where
  | nameExpr {n} : NameRefsOk ctx n → ExprRefsOk ctx (.nameExpr n)
  | otherExpr {tag} : ExprRefsOk ctx (.otherExpr tag)
end

/-- All reference slots reachable from a suffix hold safe ids. -/
def SuffixRefsOk (ctx : Ctx) : Suffix → Prop
  | .callOrIndexedSuffix assocs => ∀ a, a ∈ assocs → AssocRefsOk ctx a
  | _ => True

/-- The contracts of the external collaborators on recoverable input: entities
published into reference slots are never return-type-less overloadeds, and
disambiguation against a target type only selects subprograms whose return
type exists (it filters by return type). -/
structure CtxOk (ctx : Ctx) : Prop where
  lookup_single : ∀ pos des ent, ctx.lookup pos des = .ok (.single ent) → ref_ok ctx ent.id
  design_single : ∀ dent pos des ent,
    ctx.designSelected dent pos des = .ok (.single ent) → ref_ok ctx ent.id
  library_unit : ∀ sym pos des dent,
    ctx.lookupInLibrary sym pos des = .ok dent → ref_ok ctx dent.id
  record_elem : ∀ pfxPos t sdes elemId tm,
    type_selected ctx pfxPos t sdes = .ok (.recordElement elemId tm) → ref_ok ctx elemId
  disamb_ttyp_returns : ∀ des t ov ent,
    ctx.disambiguateNoActuals des (some t) ov = .ok (some (.unambiguous ent)) →
    ent.returnType.isSome

/-- Under the invariant, `ObjectName::type_mark()` never reaches its
`unreachable!`. -/
theorem obj_inv_type_mark_isSome (o : ObjectName) (h : o.inv) :
    (ObjectName.type_mark o).isSome := by
  obtain ⟨base, tm⟩ := o
  cases tm with
  | some t => simp [ObjectName.type_mark]
  | none =>
    obtain ⟨obj, hb⟩ := h rfl
    simp at hb
    subst hb
    simp [ObjectName.type_mark]

/-- The initial suffix-reference slot of a tree with safe slots is safe. -/
theorem get_suffix_reference_ok (ctx : Ctx) (n : Name) (h : NameRefsOk ctx n) :
    write_ok ctx (get_suffix_reference n) := by
  cases h <;> simp [get_suffix_reference, write_ok] <;> intro id hid
  case designator ref hr => exact hr id hid
  case selected _ sdes _ hr => exact hr id hid

/-- The effective fast-path read is safe when the prefix write and the prefix
tree are. -/
theorem effective_suffix_ref_ok (ctx : Ctx) (pw : Option Nat) (pfx : Name)
    (hw : write_ok ctx pw) (hn : NameRefsOk ctx pfx) :
    write_ok ctx (effective_suffix_ref pw pfx) := by
  cases pw with
  | some v => exact hw
  | none => exact get_suffix_reference_ok ctx pfx hn

/-- `from_scope_not_overloaded` only builds object names satisfying the
invariant. -/
theorem from_scope_inv (e : Ent) (rn : ResolvedName)
    (h : from_scope_not_overloaded e = .ok rn) : resolved_obj_inv rn := by
  obtain ⟨id, k⟩ := e
  cases k <;> simp [from_scope_not_overloaded] at h <;> subst h <;>
    simp [resolved_obj_inv, ObjectName.inv]

/-- `from_design_not_overloaded` only builds object names satisfying the
invariant. -/
theorem from_design_inv (e : Ent) (rn : ResolvedName)
    (h : from_design_not_overloaded e = .ok rn) : resolved_obj_inv rn := by
  obtain ⟨id, k⟩ := e
  cases k <;> simp [from_design_not_overloaded] at h <;> subst h <;>
    simp [resolved_obj_inv, ObjectName.inv]

/-- The collapse step preserves the object-name invariant. -/
theorem collapse_overloaded_inv (ctx : Ctx) (pfxPos : Pos) (sfx : Suffix)
    (r r' : ResolvedName) (hinv : resolved_obj_inv r)
    (h : collapse_overloaded ctx pfxPos sfx r = .cont r') : resolved_obj_inv r' := by
  unfold collapse_overloaded at h
  split at h
  · cases h
    exact hinv
  · split at h
    · split at h
      · exact absurd h (by simp)
      · cases h
        exact hinv
      · exact absurd h (by simp)
      · split at h
        · cases h
          simp [resolved_obj_inv]
        · exact absurd h (by simp)
    · cases h
      exact hinv

/-- Safety statement for the driver at a given fuel. -/
def nrws_prop (ctx : Ctx) (fuel : Nat) : Prop :=
  ∀ (pos : Pos) (name : Name) (ttyp : Option TypeId) (hs : Bool),
    NameRefsOk ctx name →
    (name_resolve_with_suffixes ctx fuel pos name ttyp hs).1 ≠ .panicked ∧
    ∀ rn, (name_resolve_with_suffixes ctx fuel pos name ttyp hs).1 = .ok (some rn) →
      resolved_obj_inv rn ∧
      write_ok ctx (name_resolve_with_suffixes ctx fuel pos name ttyp hs).2.2

/-- Safety statement for `resolve_typed_suffix` at a given fuel. -/
def rts_prop (ctx : Ctx) (fuel : Nat) : Prop :=
  ∀ (pfxPos namePos : Pos) (pfxTyp : TypeId) (sfx : Suffix), SuffixRefsOk ctx sfx →
    (resolve_typed_suffix ctx fuel pfxPos namePos pfxTyp sfx).1 ≠ .panicked ∧
    write_ok ctx (resolve_typed_suffix ctx fuel pfxPos namePos pfxTyp sfx).2.2

/-- Safety statement for `assoc_as_discrete_range_type` at a given fuel. -/
def assoc_prop (ctx : Ctx) (fuel : Nat) : Prop :=
  ∀ assocs, (∀ a, a ∈ assocs → AssocRefsOk ctx a) →
    (assoc_as_discrete_range_type ctx fuel assocs).1 ≠ .panicked

/-- Safety statement for `expr_as_discrete_range_type` at a given fuel. -/
def expr_prop (ctx : Ctx) (fuel : Nat) : Prop :=
  ∀ (exprPos : Pos) (e : Expr), ExprRefsOk ctx e →
    (expr_as_discrete_range_type ctx fuel exprPos e).1 ≠ .panicked

/-- Safety statement for `after_pfx_resolved` at a given fuel. -/
def after_prop (ctx : Ctx) (fuel : Nat) : Prop :=
  ∀ (namePos pfxPos : Pos) (pfx : Name) (sfx : Suffix) (target : Option TypeId)
    (resolved0 : ResolvedName) (pdiags : List Diag) (pw : Option Nat),
    NameRefsOk ctx pfx → SuffixRefsOk ctx sfx → resolved_obj_inv resolved0 →
    write_ok ctx pw →
    (after_pfx_resolved ctx fuel namePos pfxPos pfx sfx target resolved0 pdiags pw).1 ≠
      .panicked ∧
    ∀ rn, (after_pfx_resolved ctx fuel namePos pfxPos pfx sfx target
        resolved0 pdiags pw).1 = .ok (some rn) →
      resolved_obj_inv rn ∧
      write_ok ctx (after_pfx_resolved ctx fuel namePos pfxPos pfx sfx target
        resolved0 pdiags pw).2.2

/-- The driver is trivially safe with no fuel. -/
theorem nrws_safe_zero (ctx : Ctx) : nrws_prop ctx 0 := by
  intro pos name ttyp hs hname
  simp [name_resolve_with_suffixes]

/-- `expr_as_discrete_range_type` is safe when the driver is. -/
theorem expr_safe (ctx : Ctx) (fuel : Nat) (hn : nrws_prop ctx fuel) :
    expr_prop ctx fuel := by
  intro exprPos e he
  cases he with
  | otherExpr => simp [expr_as_discrete_range_type]
  | nameExpr hname =>
    rename_i n
    by_cases hsel : is_selected_name n
    · rcases hcall : name_resolve_with_suffixes ctx fuel exprPos n none false
        with ⟨o, ds, w⟩
      have hsafe := (hn exprPos n none false hname).1
      rw [hcall] at hsafe
      simp only at hsafe
      simp only [expr_as_discrete_range_type, hsel, Bool.not_true,
        Bool.false_eq_true, if_false, hcall]
      cases o with
      | err d => simp
      | panicked => exact absurd rfl hsafe
      | outOfFuel => simp
      | ok r =>
        rcases r with _ | rn
        · simp
        · cases rn <;> simp <;> split <;> simp
    · simp [expr_as_discrete_range_type, hsel]

/-- `assoc_as_discrete_range_type` is safe when the expression probe is. -/
theorem assoc_safe (ctx : Ctx) (fuel : Nat) (he : expr_prop ctx fuel) :
    assoc_prop ctx fuel := by
  intro assocs hassocs
  rw [assoc_as_discrete_range_type.eq_def]
  by_cases hidx : could_be_indexed_name assocs
  · simp only [hidx, Bool.not_true, Bool.false_eq_true, if_false]
    split
    · rename_i frm apos ex
      have hmem : AssocRefsOk ctx (.mk frm apos (.expression ex)) := by
        apply hassocs
        simp
      cases hmem with
      | mk hactual =>
        cases hactual with
        | expression hexpr => exact he apos ex hexpr
    · intro hcontra
      exact Outcome.noConfusion hcontra
  · have hidx2 : could_be_indexed_name assocs = false := by simpa using hidx
    simp [hidx2]

/-- `resolve_typed_suffix` is safe when the slice probe is, and its reference
write is a record element, hence safe. -/
theorem rts_safe (ctx : Ctx) (fuel : Nat) (hctx : CtxOk ctx)
    (ha : assoc_prop ctx fuel) : rts_prop ctx fuel := by
  intro pfxPos namePos pfxTyp sfx hsfx
  cases sfx with
  | selectedSuffix sdes =>
    rcases hts : type_selected ctx pfxPos pfxTyp sdes with d | ts
    · simp [resolve_typed_suffix, hts, write_ok]
    · cases ts with
      | recordElement elemId tm =>
        simp only [resolve_typed_suffix, hts]
        refine ⟨by simp, ?_⟩
        intro id hid
        simp at hid
        subst hid
        exact hctx.record_elem pfxPos pfxTyp sdes elemId tm hts
      | protectedMethod methods => simp [resolve_typed_suffix, hts, write_ok]
  | allSuffix =>
    constructor
    · rcases haccess : accessed_type ctx.types pfxTyp with _ | t <;>
        simp [resolve_typed_suffix, haccess]
    · simp [resolve_typed_suffix, write_ok]
  | sliceSuffix range =>
    rcases hsl : sliced_as ctx.types pfxTyp with _ | t <;>
      simp [resolve_typed_suffix, hsl, write_ok]
  | attributeSuffix signature expr => simp [resolve_typed_suffix, write_ok]
  | callOrIndexedSuffix assocs =>
    have hip : ∀ ds, (indexed_part ctx namePos pfxTyp assocs ds).1 ≠ .panicked ∧
        write_ok ctx (indexed_part ctx namePos pfxTyp assocs ds).2.2 := by
      intro ds
      unfold indexed_part
      split
      · rcases harr : array_type ctx.types pfxTyp with _ | et
        · simp [write_ok]
        · obtain ⟨elemType, numIndexes⟩ := et
          by_cases hlen : assocs.length = numIndexes <;> simp [hlen, write_ok]
      · simp [write_ok]
    rcases hsl : sliced_as ctx.types pfxTyp with _ | t
    · simp only [resolve_typed_suffix, hsl]
      exact hip []
    · have hasafe := ha assocs hsfx
      rcases hprobe : assoc_as_discrete_range_type ctx fuel assocs with ⟨o, ds⟩
      rw [hprobe] at hasafe
      simp only at hasafe
      simp only [resolve_typed_suffix, hsl, hprobe]
      cases o with
      | err d => simp [write_ok]
      | panicked => exact absurd rfl hasafe
      | outOfFuel => simp [write_ok]
      | ok r =>
        rcases r with _ | typ
        · exact hip ds
        · simp [write_ok]

/-- The call-or-indexed disambiguation arm never panics, writes nothing into
the current node's slot, and only produces expression results. -/
theorem call_disambiguate_safe (ctx : Ctx) (namePos pfxPos : Pos)
    (des : DesWithPos) (assocs : List AssociationElement) (target : Option TypeId)
    (ov : List OEnt) (pdiags : List Diag) :
    (call_disambiguate ctx namePos pfxPos des assocs target ov pdiags).1 ≠ .panicked ∧
    (call_disambiguate ctx namePos pfxPos des assocs target ov pdiags).2.2 = none ∧
    ∀ rn, (call_disambiguate ctx namePos pfxPos des assocs target ov pdiags).1 =
      .ok (some rn) → resolved_obj_inv rn := by
  unfold call_disambiguate
  split
  · simp
  · simp
  · split <;> simp [resolved_obj_inv]
  · simp

/-- `after_pfx_resolved` is safe when the context contracts hold, the typed
suffix applier is safe, the prefix tree and the suffix hold safe references,
the resolved prefix satisfies the object-name invariant, and the write made
while resolving the prefix is safe. -/
theorem after_safe (ctx : Ctx) (fuel : Nat) (hctx : CtxOk ctx)
    (hr : rts_prop ctx fuel) : after_prop ctx fuel := by
  intro namePos pfxPos pfx sfx target resolved0 pdiags pw hpfx hsfx hinv hw
  rcases hcol : collapse_overloaded ctx pfxPos sfx resolved0 with r | ds0 | d0
  case exitNone =>
    rw [after_pfx_resolved.eq_def, hcol]
    exact ⟨by simp, fun rn hrn => by simp at hrn⟩
  case exitErr =>
    rw [after_pfx_resolved.eq_def, hcol]
    exact ⟨by simp, fun rn hrn => by simp at hrn⟩
  case cont =>
    have hinv2 := collapse_overloaded_inv ctx pfxPos sfx resolved0 r hinv hcol
    rw [after_pfx_resolved.eq_def, hcol]
    dsimp only
    cases sfx with
    | attributeSuffix signature expr =>
      exact ⟨by simp, fun rn hrn => by simp at hrn⟩
    | _ =>
      cases r with
      | library sym =>
        first
        | -- selected suffix: look up in the library
          (rename_i sdes
           rcases hlib : ctx.lookupInLibrary sym sdes.pos sdes.des with d | dent
           · exact ⟨by simp [hlib], fun rn hrn => by simp [hlib] at hrn⟩
           · refine ⟨by simp [hlib], fun rn hrn => ?_⟩
             simp [hlib] at hrn
             subst hrn
             refine ⟨by simp [resolved_obj_inv], ?_⟩
             intro id hid
             simp [hlib] at hid
             subst hid
             exact hctx.library_unit sym sdes.pos sdes.des dent hlib)
        | -- any other suffix: cannot-be-prefix error
          exact ⟨by simp, fun rn hrn => by simp at hrn⟩
      | design dent =>
        first
        | (rename_i sdes
           rcases hdes : ctx.designSelected dent pfxPos sdes.des with d | named
           · exact ⟨by simp [hdes], fun rn hrn => by simp [hdes] at hrn⟩
           · cases named with
             | single ent =>
               rcases hfd : from_design_not_overloaded ent with msg | rn2
               · exact ⟨by simp [hdes, hfd], fun rn hrn => by simp [hdes, hfd] at hrn⟩
               · refine ⟨by simp [hdes, hfd], fun rn hrn => ?_⟩
                 simp [hdes, hfd] at hrn
                 subst hrn
                 refine ⟨from_design_inv ent rn2 hfd, ?_⟩
                 intro id hid
                 simp [hdes, hfd, NamedEntities.uniqueId] at hid
                 subst hid
                 exact hctx.design_single dent pfxPos sdes.des ent hdes
             | overloaded ov2 =>
               refine ⟨by simp [hdes], fun rn hrn => ?_⟩
               simp [hdes] at hrn
               subst hrn
               exact ⟨by simp [resolved_obj_inv],
                 by simp [hdes, NamedEntities.uniqueId, write_ok]⟩)
        | exact ⟨by simp, fun rn hrn => by simp at hrn⟩
      | typeName typ =>
        first
        | (rename_i assocs
           by_cases hone : assocs.length = 1 ∧ could_be_indexed_name assocs = true
           · refine ⟨by simp [hone], fun rn hrn => ?_⟩
             simp [hone] at hrn
             subst hrn
             exact ⟨by simp [resolved_obj_inv], by simp [hone, write_ok]⟩
           · exact ⟨by simp [hone], fun rn hrn => by simp [hone] at hrn⟩)
        | exact ⟨by simp, fun rn hrn => by simp at hrn⟩
      | finalName ent => exact ⟨by simp, fun rn hrn => by simp at hrn⟩
      | expression dt =>
        cases dt with
        | ambiguous ts => exact ⟨by simp, fun rn hrn => by simp at hrn⟩
        | unambiguous pfxTyp =>
          dsimp only
          obtain ⟨hr1, hr2⟩ := hr pfxPos namePos pfxTyp _ hsfx
          refine ⟨typed_suffix_branch_safe _ _ _ _ _ _ _ _ _ hr1, fun rn hrn => ?_⟩
          obtain ⟨hshape, hwrite⟩ :=
            typed_suffix_branch_cases_fst _ _ _ _ _ _ _ _ _ _ hrn
          refine ⟨?_, ?_⟩
          · rcases hshape with ⟨t2, ht2⟩ | ⟨d2, m2, hm2⟩ <;> subst_eqs <;>
              simp [resolved_obj_inv]
          · rw [hwrite]
            exact hr2
      | objectName o =>
        dsimp only
        have hoinv : o.inv := hinv2
        rcases htm : ObjectName.type_mark o with _ | pt
        · have := obj_inv_type_mark_isSome o hoinv
          rw [htm] at this
          simp at this
        · dsimp only
          obtain ⟨hr1, hr2⟩ := hr pfxPos namePos pt _ hsfx
          refine ⟨typed_suffix_branch_safe _ _ _ _ _ _ _ _ _ hr1, fun rn hrn => ?_⟩
          obtain ⟨hshape, hwrite⟩ :=
            typed_suffix_branch_cases_fst _ _ _ _ _ _ _ _ _ _ hrn
          refine ⟨?_, ?_⟩
          · rcases hshape with ⟨t2, ht2⟩ | ⟨d2, m2, hm2⟩ <;> subst_eqs <;>
              simp [resolved_obj_inv, ObjectName.inv, ObjectName.with_suffix]
          · rw [hwrite]
            exact hr2
      | overloadedName des ov =>
        dsimp only
        first
        | (rename_i assocs
           rcases heff : effective_suffix_ref pw pfx with _ | id
           · dsimp only
             obtain ⟨c1, c2, c3⟩ :=
               call_disambiguate_safe ctx namePos pfxPos des assocs target ov pdiags
             exact ⟨c1, fun rn hrn => ⟨c3 rn hrn, by rw [c2]; simp [write_ok]⟩⟩
           · dsimp only
             have hrefok : ref_ok ctx id :=
               effective_suffix_ref_ok ctx pw pfx hw hpfx id heff
             rcases harena : ctx.arena id with _ | _ | _ | _ | _ | rt
             case overloadedKind =>
               cases rt with
               | some returnType =>
                 refine ⟨by simp, fun rn hrn => ?_⟩
                 simp at hrn
                 subst hrn
                 exact ⟨by simp [resolved_obj_inv], by simp [write_ok]⟩
               | none => exact absurd harena hrefok
             all_goals
               (dsimp only
                obtain ⟨c1, c2, c3⟩ :=
                  call_disambiguate_safe ctx namePos pfxPos des assocs target ov pdiags
                exact ⟨c1, fun rn hrn => ⟨c3 rn hrn, by rw [c2]; simp [write_ok]⟩⟩))
        | exact ⟨by simp, fun rn hrn => by simp at hrn⟩

/-- One driver step preserves safety. -/
theorem nrws_safe_succ (ctx : Ctx) (fuel : Nat) (hctx : CtxOk ctx)
    (hn : nrws_prop ctx fuel) (ha : after_prop ctx fuel) :
    nrws_prop ctx (fuel + 1) := by
  intro pos name ttyp hs hname
  cases hname with
  | designator hw =>
    rename_i des ref
    rcases hl : ctx.lookup pos des with d | ne
    · simp only [name_resolve_with_suffixes, split_name, hl]
      exact ⟨by simp, fun rn hrn => by simp at hrn⟩
    · cases ne with
      | single ent =>
        rcases hfs : from_scope_not_overloaded ent with msg | rn2
        · simp only [name_resolve_with_suffixes, split_name, hl, hfs]
          exact ⟨by simp, fun rn hrn => by simp at hrn⟩
        · simp only [name_resolve_with_suffixes, split_name, hl, hfs]
          refine ⟨by simp, fun rn hrn => ?_⟩
          simp at hrn
          subst hrn
          refine ⟨from_scope_inv ent rn2 hfs, ?_⟩
          intro id hid
          simp at hid
          subst hid
          exact hctx.lookup_single pos des ent hl
      | overloaded ov =>
        simp only [name_resolve_with_suffixes, split_name, hl]
        refine ⟨by simp, fun rn hrn => ?_⟩
        simp at hrn
        subst hrn
        exact ⟨by simp [resolved_obj_inv], by simp [write_ok]⟩
  | external =>
    rename_i objClass subtype
    rcases hst : ctx.resolveSubtypeIndication subtype with ⟨e, ds⟩
    cases e with
    | error d =>
      simp only [name_resolve_with_suffixes, split_name, hst]
      exact ⟨by simp, fun rn hrn => by simp at hrn⟩
    | ok typeMark =>
      simp only [name_resolve_with_suffixes, split_name, hst]
      refine ⟨by simp, fun rn hrn => ?_⟩
      simp at hrn
      subst hrn
      exact ⟨by simp [resolved_obj_inv, ObjectName.inv], by simp [write_ok]⟩
  | selected hpfx hwsdes =>
    rename_i pfxPos pfx sdes
    have hsub := hn pfxPos pfx none true hpfx
    rcases hrec : name_resolve_with_suffixes ctx fuel pfxPos pfx none true with ⟨o, ds, w⟩
    rw [hrec] at hsub
    simp only [name_resolve_with_suffixes, split_name, hrec]
    cases o with
    | panicked => exact absurd rfl hsub.1
    | err d => exact ⟨by simp, fun rn hrn => by simp at hrn⟩
    | outOfFuel => exact ⟨by simp, fun rn hrn => by simp at hrn⟩
    | ok ores =>
      cases ores with
      | none => exact ⟨by simp, fun rn hrn => by simp at hrn⟩
      | some r =>
        obtain ⟨hinvr, hwr⟩ := hsub.2 r rfl
        exact ha pos pfxPos pfx (.selectedSuffix sdes) (disamb_target hs ttyp) r ds w
          hpfx trivial hinvr hwr
  | selectedAll hpfx =>
    rename_i pfxPos pfx
    have hsub := hn pfxPos pfx none true hpfx
    rcases hrec : name_resolve_with_suffixes ctx fuel pfxPos pfx none true with ⟨o, ds, w⟩
    rw [hrec] at hsub
    simp only [name_resolve_with_suffixes, split_name, hrec]
    cases o with
    | panicked => exact absurd rfl hsub.1
    | err d => exact ⟨by simp, fun rn hrn => by simp at hrn⟩
    | outOfFuel => exact ⟨by simp, fun rn hrn => by simp at hrn⟩
    | ok ores =>
      cases ores with
      | none => exact ⟨by simp, fun rn hrn => by simp at hrn⟩
      | some r =>
        obtain ⟨hinvr, hwr⟩ := hsub.2 r rfl
        exact ha pos pfxPos pfx .allSuffix (disamb_target hs ttyp) r ds w
          hpfx trivial hinvr hwr
  | sliceName hpfx =>
    rename_i pfxPos pfx range
    have hsub := hn pfxPos pfx none true hpfx
    rcases hrec : name_resolve_with_suffixes ctx fuel pfxPos pfx none true with ⟨o, ds, w⟩
    rw [hrec] at hsub
    simp only [name_resolve_with_suffixes, split_name, hrec]
    cases o with
    | panicked => exact absurd rfl hsub.1
    | err d => exact ⟨by simp, fun rn hrn => by simp at hrn⟩
    | outOfFuel => exact ⟨by simp, fun rn hrn => by simp at hrn⟩
    | ok ores =>
      cases ores with
      | none => exact ⟨by simp, fun rn hrn => by simp at hrn⟩
      | some r =>
        obtain ⟨hinvr, hwr⟩ := hsub.2 r rfl
        exact ha pos pfxPos pfx (.sliceSuffix range) (disamb_target hs ttyp) r ds w
          hpfx trivial hinvr hwr
  | attributeName hpfx =>
    rename_i pfxPos pfx signature expr
    have hsub := hn pfxPos pfx none true hpfx
    rcases hrec : name_resolve_with_suffixes ctx fuel pfxPos pfx none true with ⟨o, ds, w⟩
    rw [hrec] at hsub
    simp only [name_resolve_with_suffixes, split_name, hrec]
    cases o with
    | panicked => exact absurd rfl hsub.1
    | err d => exact ⟨by simp, fun rn hrn => by simp at hrn⟩
    | outOfFuel => exact ⟨by simp, fun rn hrn => by simp at hrn⟩
    | ok ores =>
      cases ores with
      | none => exact ⟨by simp, fun rn hrn => by simp at hrn⟩
      | some r =>
        obtain ⟨hinvr, hwr⟩ := hsub.2 r rfl
        exact ha pos pfxPos pfx (.attributeSuffix signature expr)
          (disamb_target hs ttyp) r ds w hpfx trivial hinvr hwr
  | callOrIndexed hpfx hassocs =>
    rename_i pfxPos pfx parameters
    have hsub := hn pfxPos pfx none true hpfx
    rcases hrec : name_resolve_with_suffixes ctx fuel pfxPos pfx none true with ⟨o, ds, w⟩
    rw [hrec] at hsub
    simp only [name_resolve_with_suffixes, split_name, hrec]
    cases o with
    | panicked => exact absurd rfl hsub.1
    | err d => exact ⟨by simp, fun rn hrn => by simp at hrn⟩
    | outOfFuel => exact ⟨by simp, fun rn hrn => by simp at hrn⟩
    | ok ores =>
      cases ores with
      | none => exact ⟨by simp, fun rn hrn => by simp at hrn⟩
      | some r =>
        obtain ⟨hinvr, hwr⟩ := hsub.2 r rfl
        exact ha pos pfxPos pfx (.callOrIndexedSuffix parameters)
          (disamb_target hs ttyp) r ds w hpfx hassocs hinvr hwr

/-- The driver is safe at every fuel. -/
theorem nrws_safe (ctx : Ctx) (hctx : CtxOk ctx) : ∀ fuel, nrws_prop ctx fuel := by
  intro fuel
  induction fuel with
  | zero => exact nrws_safe_zero ctx
  | succ f ih =>
    exact nrws_safe_succ ctx f hctx ih
      (after_safe ctx f hctx (rts_safe ctx f hctx (assoc_safe ctx f (expr_safe ctx f ih))))

/-- C9: on recoverable input — reference slots in the AST hold no
return-type-less overloaded entity and the external collaborators meet their
contracts — the resolver never panics: neither the fast-path unwrap, nor the
unwrap after disambiguation with a target type in
`name_to_unambiguous_type`, nor the `unreachable!` of
`ObjectName::type_mark()` is ever hit; every failure surfaces as a pushed
diagnostic plus `None` or as a non-fatal error value. -/
theorem C9_no_panic (ctx : Ctx) (hctx : CtxOk ctx) :
    (∀ (fuel : Nat) (pos : Pos) (name : Name) (ttyp : Option TypeId) (hs : Bool),
      NameRefsOk ctx name →
      (name_resolve_with_suffixes ctx fuel pos name ttyp hs).1 ≠ .panicked) ∧
    (∀ (pos : Pos) (rn : ResolvedName) (ttyp : TypeId) (suffixRefGiven : Bool),
      resolved_obj_inv rn →
      (name_to_unambiguous_type ctx pos rn ttyp suffixRefGiven).1 ≠ .panicked) := by
  constructor
  · intro fuel pos name ttyp hs h
    exact (nrws_safe ctx hctx fuel pos name ttyp hs h).1
  · intro pos rn ttyp suffixRefGiven hinv
    cases rn with
    | library sym => simp [name_to_unambiguous_type]
    | design ent => simp [name_to_unambiguous_type]
    | typeName typ => simp [name_to_unambiguous_type]
    | finalName ent =>
      obtain ⟨id, k⟩ := ent
      cases k <;> simp [name_to_unambiguous_type]
    | expression dt => cases dt <;> simp [name_to_unambiguous_type]
    | objectName o =>
      have := obj_inv_type_mark_isSome o hinv
      rcases htm : ObjectName.type_mark o with _ | tm
      · rw [htm] at this
        simp at this
      · simp [name_to_unambiguous_type, htm]
    | overloadedName des ov =>
      rcases hdis : ctx.disambiguateNoActuals des (some ttyp) ov with d | od
      · simp [name_to_unambiguous_type, hdis]
      · cases od with
        | none => simp [name_to_unambiguous_type, hdis]
        | some dis =>
          cases dis with
          | ambiguous cands => simp [name_to_unambiguous_type, hdis]
          | unambiguous ent =>
            have hret := hctx.disamb_ttyp_returns des ttyp ov ent hdis
            rcases hrt : ent.returnType with _ | rt
            · rw [hrt] at hret
              simp at hret
            · simp [name_to_unambiguous_type, hdis, hrt]

/-- The concrete fixture context meets the collaborator contracts. -/
theorem testCtxOk : CtxOk testCtx := by
  refine ⟨?_, ?_, ?_, ?_, ?_⟩
  · intro pos des ent h
    simp only [testCtx] at h
    split_ifs at h <;> simp_all <;> subst_eqs <;>
      simp [ref_ok, testCtx, entC0, entM, entLabel]
  · intro dent pos des ent h
    simp only [testCtx] at h
    split_ifs at h <;> simp_all <;> subst_eqs <;> simp [ref_ok, testCtx]
  · intro sym pos des dent h
    simp only [testCtx] at h
    split_ifs at h <;> simp_all <;> subst_eqs <;> simp [ref_ok, testCtx]
  · intro pfxPos t sdes elemId tm h
    unfold type_selected at h
    split at h
    case h_1 fields heq =>
      have hfields : fields = [("field", 70, 1)] := by
        simp only [testCtx, testTypes, base_type] at heq
        split_ifs at heq <;> simp_all
      subst hfields
      split at h
      case h_1 found heq2 =>
        simp only [List.find?] at heq2
        split at heq2 <;> simp_all
        obtain ⟨hname2, h70, h1t⟩ := heq2
        subst h70
        show testCtx.arena 70 ≠ EntKind.overloadedKind none
        decide
      case h_2 => simp at h
    case h_2 methods heq => split at h <;> simp at h
    case h_3 => simp at h
  · intro des t ov ent h
    simp only [testCtx, pickOverload] at h
    split at h
    · simp at h
    · rename_i e heq
      simp only [Except.ok.injEq, Option.some.injEq] at h
      have : e = ent := by
        cases h with
        | refl => rfl
      subst this
      have hmem : e ∈ ov.filter fun x => decide (x.returnType = some t) := by
        rw [heq]
        simp
      have := (List.mem_filter.mp hmem).2
      simp only [decide_eq_true_eq] at this
      simp [this]
    · simp at h

/-- C9, witness: resolving the concrete call `fun1(arg)` in the fixture
context does not panic. -/
theorem C9_no_panic_witness :
    (name_resolve_with_suffixes testCtx 10 5
      (.callOrIndexed 1 (.designator "fun1" none) [posAssoc 0]) none false).1 ≠
      .panicked :=
  (C9_no_panic testCtx testCtxOk).1 10 5
    (.callOrIndexed 1 (.designator "fun1" none) [posAssoc 0]) none false
    (NameRefsOk.callOrIndexed
      (NameRefsOk.designator (fun id hid => Option.noConfusion hid))
      (fun a ha => by
        simp at ha
        subst ha
        exact AssocRefsOk.mk (ActualRefsOk.expression ExprRefsOk.otherExpr)))

end VhdlNames
